import Mathlib

/-!
Verification of the sigil dynamic image synthesis engine.

The development shallowly embeds the two core crates:

* `sigil-core`  — the scene data model and the template resolver
  (`Sigil`, `Layer`, `Item`, `Sigil::resolve`, `replace_vars`);
* `sigil-render` — the compositor (`Renderer::render_raw`, `Renderer::render`,
  `parse_color`, `create_rounded_rect_path`).

Modelling conventions:

* Rust `String`/`&str` values are modelled as their UTF-8 byte sequences
  (`List Nat`); `str::len` is the byte length and slicing is byte slicing,
  so the char-boundary panics of Rust slicing are representable.
* `f32` fields are modelled as exact rationals (`Rat`).  The arithmetic the
  claims are about (division, `max`, multiplication, comparison with zero,
  `min`-clamping) is structural and carries over verbatim; float rounding
  is not modelled.
* The external libraries (`tiny_skia` rasterization, the `image` decoder,
  `cosmic_text` shaping, `swash` glyph rasterization) are not part of this
  repository.  Rasterization is modelled by a trace of draw operations —
  the pixel buffer is a deterministic function of the initial buffer
  contents and that trace — together with a partial pixel evaluator for
  the exactly-representable fragment (whole-pixel axis-aligned geometry,
  source-over blending).  Decoding, resizing and shaping are parameters
  of the semantics (`RenderExts`), so theorems quantify over them.
* A Rust panic (process abort) is modelled by the distinguished outcomes
  `ParseColorResult.panicAbort` / `RenderError.panicked`; these are never
  conflated with returned errors.
-/

/- Batteries marks the `Rat` arithmetic operations `@[irreducible]`; the
concrete evaluations below need the kernel to unfold them. -/
unseal Rat.add Rat.mul Rat.sub Rat.inv Rat.ofScientific

/-- UTF-8 byte strings: a Rust `String`/`&str` is modelled as its byte
sequence, each byte a `Nat` below 256. -/
abbrev Str := List Nat

/-- Bytes of an ASCII string literal (for ASCII text, code points and UTF-8
bytes coincide; every literal used below is ASCII). -/
def asBytes (s : String) : Str := s.data.map Char.toNat

/-! ## `parse_color` (sigil-render/src/lib.rs, lines 534-544)

```rust
fn parse_color(hex: &str) -> Option<Color> {
    if !hex.starts_with('#') || hex.len() != 7 { return None; }
    let r = u8::from_str_radix(&hex[1..3], 16).ok()?;
    let g = u8::from_str_radix(&hex[3..5], 16).ok()?;
    let b = u8::from_str_radix(&hex[5..7], 16).ok()?;
    Some(Color::from_rgba8(r, g, b, 255))
}
```
-/

/-- Hexadecimal digit bytes: `0-9`, `a-f`, `A-F`. -/
def isHexDigit (b : Nat) : Bool :=
  (48 ≤ b && b ≤ 57) || (97 ≤ b && b ≤ 102) || (65 ≤ b && b ≤ 70)

/-- Value of a hexadecimal digit byte. -/
def hexVal (b : Nat) : Nat :=
  if 48 ≤ b ∧ b ≤ 57 then b - 48
  else if 97 ≤ b ∧ b ≤ 102 then b - 87
  else if 65 ≤ b ∧ b ≤ 70 then b - 55
  else 0

/-- Rust `u8::from_str_radix(s, 16)`: an optional leading `+`, then at least
one hexadecimal digit; a leading `-` is not stripped for unsigned types and
fails the digit test; the accumulated value must fit in `u8`. -/
def fromStrRadix16 (s : Str) : Option Nat :=
  let digits := if s.head? = some 43 then s.tail else s
  if digits = [] then none
  else if digits.all isHexDigit then
    let v := digits.foldl (fun acc b => acc * 16 + hexVal b) 0
    if v ≤ 255 then some v else none
  else none

/-- A `tiny_skia` color as built by `Color::from_rgba8` (8-bit components,
not premultiplied). -/
structure Color where
  r : Nat
  g : Nat
  b : Nat
  a : Nat
deriving DecidableEq, Repr

/-- Outcome of `parse_color`: a color, `None`, or a byte-slicing panic
(process abort — distinct from any returned value). -/
inductive ParseColorResult
  | ok (c : Color)
  | notColor
  | panicAbort
deriving DecidableEq, Repr

/-- Rust byte slice `&s[a..b]`. -/
def sliceB (s : Str) (a b : Nat) : Str := (s.drop a).take (b - a)

/-- Rust `str::is_char_boundary(i)`: true at 0 and at the end, false beyond
the end, and otherwise true iff byte `i` is not a UTF-8 continuation byte. -/
def isBnd (s : Str) (i : Nat) : Bool :=
  i == 0 || i == s.length ||
    match s[i]? with
    | some b => !(128 ≤ b && b < 192)
    | none => false

/-- `parse_color`.  Slicing `&hex[1..3]` first checks that offsets 1 and 3
are char boundaries (panicking otherwise); `from_str_radix(..).ok()?`
returns `None` on a parse failure before the next slice is taken. -/
def parse_color (hex : Str) : ParseColorResult :=
  if ¬(hex.head? = some 35) ∨ hex.length ≠ 7 then .notColor
  else if ¬(isBnd hex 1 ∧ isBnd hex 3) then .panicAbort
  else
    match fromStrRadix16 (sliceB hex 1 3) with
    | none => .notColor
    | some r =>
      if ¬(isBnd hex 3 ∧ isBnd hex 5) then .panicAbort
      else
        match fromStrRadix16 (sliceB hex 3 5) with
        | none => .notColor
        | some g =>
          if ¬(isBnd hex 5 ∧ isBnd hex 7) then .panicAbort
          else
            match fromStrRadix16 (sliceB hex 5 7) with
            | none => .notColor
            | some b => .ok ⟨r, g, b, 255⟩

/-! ## Scene model (sigil-core/src/lib.rs, lines 18-84) -/

/-- `TextItem`. -/
structure TextItem where
  text : Str
  font_size : Rat
  color : Str
  font_family : Str
deriving DecidableEq, Repr

/-- `ImageItem`. -/
structure ImageItem where
  source : Str
  width : Rat
  height : Rat
  border_radius : Rat
deriving DecidableEq, Repr

/-- `RectItem`. -/
structure RectItem where
  width : Rat
  height : Rat
  color : Str
  border_radius : Rat
deriving DecidableEq, Repr

/-- `SliderItem`. -/
structure SliderItem where
  width : Rat
  height : Rat
  value : Rat
  max_value : Rat
  background_color : Str
  fill_color : Str
  border_radius : Rat
deriving DecidableEq, Repr

/-- `Item`: the closed sum of drawable payloads. -/
inductive Item
  | Text (t : TextItem)
  | Image (i : ImageItem)
  | Rect (r : RectItem)
  | Slider (s : SliderItem)
deriving DecidableEq, Repr

/-- `Layer`. -/
structure Layer where
  id : Str
  x : Rat
  y : Rat
  rotation : Rat
  visible : Bool
  item : Item
deriving DecidableEq, Repr

/-- `Sigil`: the scene (u32 canvas size, background string, ordered layers). -/
structure Sigil where
  width : Nat
  height : Nat
  background : Str
  layers : List Layer
deriving DecidableEq, Repr

/-! ## Template resolver (sigil-core/src/lib.rs, lines 88-122) -/

/-- Rust `str::replace(pat, rep)`: replace every non-overlapping occurrence
of `pat`, scanning left to right.  Structured with explicit fuel so the
kernel can evaluate it; every step consumes at least one byte and one unit
of fuel, so fuel equal to the input length never runs out. -/
def replaceAllFuel (pat rep : Str) : Nat → Str → Str
  | 0, s => s
  | _, [] => []
  | fuel + 1, b :: rest =>
    if pat ≠ [] ∧ pat.isPrefixOf (b :: rest) then
      rep ++ replaceAllFuel pat rep fuel ((b :: rest).drop pat.length)
    else
      b :: replaceAllFuel pat rep fuel rest

/-- `str::replace` at adequate fuel.  (The callers below always pass the
nonempty pattern `"{" ++ key ++ "}"`.) -/
def replaceAll (pat rep s : Str) : Str := replaceAllFuel pat rep s.length s

/-- `replace_vars`: for each `(k, v)` of the variable map substitute the
placeholder `"{k}"` by `v`.  The Rust code iterates a `HashMap` in its
(fixed but unspecified) iteration order; the map is modelled as an
association list iterated in list order. -/
def replace_vars (input : Str) (vars : List (Str × Str)) : Str :=
  vars.foldl (fun result kv => replaceAll (123 :: (kv.1 ++ [125])) kv.2 result) input

/-- The per-item part of `Sigil::resolve`: substitution applies to
`Text.text`, `Text.color`, `Image.source`, `Rect.color`,
`Slider.background_color` and `Slider.fill_color`. -/
def resolveItem (vars : List (Str × Str)) : Item → Item
  | .Text t => .Text { t with text := replace_vars t.text vars,
                              color := replace_vars t.color vars }
  | .Image i => .Image { i with source := replace_vars i.source vars }
  | .Rect r => .Rect { r with color := replace_vars r.color vars }
  | .Slider s => .Slider { s with
      background_color := replace_vars s.background_color vars,
      fill_color := replace_vars s.fill_color vars }

/-- The per-layer part of `Sigil::resolve` (only the item is touched). -/
def resolveLayer (vars : List (Str × Str)) (l : Layer) : Layer :=
  { l with item := resolveItem vars l.item }

/-- `Sigil::resolve`: clone the scene, substitute in the background and in
every layer's substitutable string fields. -/
def Sigil.resolve (g : Sigil) (vars : List (Str × Str)) : Sigil :=
  { g with background := replace_vars g.background vars,
           layers := g.layers.map (resolveLayer vars) }

/-! ## tiny_skia fragments used by the compositor

Geometry values are symbolic: transforms are recorded as the exact
composition the code builds, paths as the exact command list, so two draw
operations are equal exactly when the code constructs them identically. -/

/-- A `tiny_skia::Rect` as produced by `Rect::from_xywh` (stored as
x, y, width, height). -/
structure TSRect where
  x : Rat
  y : Rat
  w : Rat
  h : Rat
deriving DecidableEq, Repr

/-- `Rect::from_xywh`: valid iff left ≤ right and top ≤ bottom, i.e. the
width and height are nonnegative (non-finite values cannot arise over `Rat`). -/
def TSRect.from_xywh (x y w h : Rat) : Option TSRect :=
  if 0 ≤ w ∧ 0 ≤ h then some ⟨x, y, w, h⟩ else none

/-- An affine transform, recorded symbolically as the composition built by
the code (`Transform::identity().post_translate(..).post_rotate(..)...`). -/
inductive Transform
  | identity
  | postTranslate (t : Transform) (tx ty : Rat)
  | postRotate (t : Transform) (deg : Rat)
  | preTranslate (t : Transform) (tx ty : Rat)
deriving DecidableEq, Repr

/-- One `tiny_skia::PathBuilder` command. -/
inductive PathCmd
  | moveTo (x y : Rat)
  | lineTo (x y : Rat)
  | quadTo (cx cy x y : Rat)
  | close
  | pushRect (r : TSRect)
deriving DecidableEq, Repr

/-- A finished `tiny_skia::Path`: its command list. -/
abbrev TSPath := List PathCmd

/-- `PathBuilder::finish`: `None` for an empty builder (invalid bounds
cannot arise over `Rat`), otherwise the recorded commands. -/
def pathFinish (cmds : List PathCmd) : Option TSPath :=
  if cmds = [] then none else some cmds

/-- `create_rounded_rect_path` (sigil-render/src/lib.rs, lines 510-532):
clamp the radius to `min(radius, w/2, h/2)`, then emit four edges joined by
four corner quads and close. -/
def create_rounded_rect_path (rect : TSRect) (radius : Rat) : Option TSPath :=
  let x := rect.x
  let y := rect.y
  let w := rect.w
  let h := rect.h
  let r := min (min radius (w / 2)) (h / 2)
  pathFinish
    [ .moveTo (x + r) y,
      .lineTo (x + w - r) y,
      .quadTo (x + w) y (x + w) (y + r),
      .lineTo (x + w) (y + h - r),
      .quadTo (x + w) (y + h) (x + w - r) (y + h),
      .lineTo (x + r) (y + h),
      .quadTo x (y + h) x (y + h - r),
      .lineTo x (y + r),
      .quadTo x y (x + r) y,
      .close ]

/-- One premultiplied RGBA8 pixel. -/
structure Px where
  r : Nat
  g : Nat
  b : Nat
  a : Nat
deriving DecidableEq, Repr

/-- A decoded, resized, premultiplied pixmap held in the image cache
(`tiny_skia::Pixmap` of known content). -/
structure Pixmap where
  w : Nat
  h : Nat
  data : List Px
deriving DecidableEq, Repr

/-- `Pixmap::from_vec(pixels, size)`: succeeds iff the data length matches
the size. -/
def pixmapFromVec (w h : Nat) (data : List Px) : Option Pixmap :=
  if data.length = w * h then some ⟨w, h, data⟩ else none

/-- A draw operation on the renderer's pixel buffer, in the order issued.
The buffer contents are a deterministic function of the initial contents
and the operation trace. -/
inductive DrawOp
  | fillAll (c : Color)
  | drawPixmap (pix : Pixmap) (tf : Transform)
  | fillRect (r : TSRect) (c : Color) (tf : Transform)
  | fillPath (p : TSPath) (c : Color) (tf : Transform)
  | fillPathPattern (p : TSPath) (pix : Pixmap) (tf : Transform)
deriving DecidableEq, Repr

/-- `Color::BLACK`. -/
def blackColor : Color := ⟨0, 0, 0, 255⟩

/-! ## Renderer state and external collaborators -/

/-- The font database part of `cosmic_text::FontSystem`: the loaded faces
(each a list of family names, in load order) and whether the generic family
aliases have been redirected (`set_sans_serif_family` etc., all set to the
same name by the code). -/
structure FontDb where
  faces : List (List Str)
  aliasesSet : Option Str
deriving DecidableEq, Repr

/-- A run-layout glyph image from `swash` (placement plus raw data; the data
is an alpha mask when its length is `w*h` and straight RGBA when `w*h*4`). -/
structure GlyphImg where
  width : Nat
  height : Nat
  left : Int
  top : Int
  data : List Nat
deriving DecidableEq, Repr

/-- One shaped glyph: the run's baseline `line_y`, the physical glyph
position, and the rasterized image (if the swash cache produced one). -/
structure ShapedGlyph where
  lineY : Rat
  px : Int
  py : Int
  img : Option GlyphImg
deriving DecidableEq, Repr

/-- Resolved font family, as in `cosmic_text::Family`. -/
inductive Family
  | SansSerif
  | Serif
  | Monospace
  | Name (s : Str)
deriving DecidableEq, Repr

/-- Handle for a decoded image (`image::DynamicImage`); its pixel content
is produced by the resize functions below. -/
abbrev DecodedImg := Nat

/-- Contents of the renderer's internal pixel buffer: either a freshly
allocated (zeroed, fully transparent) buffer, or previous contents with a
trace of draw operations applied over them. -/
inductive BufContents
  | fresh (w h : Nat)
  | painted (base : BufContents) (ops : List DrawOp)
deriving DecidableEq, Repr

/-- Dimensions of the buffer. -/
def BufContents.dims : BufContents → Nat × Nat
  | .fresh w h => (w, h)
  | .painted base _ => base.dims

/-- `Pixmap::new(w, h)`: `None` when a dimension is zero or the byte size
overflows `i32`. -/
def pixmapNew (w h : Nat) : Option BufContents :=
  if w = 0 ∨ h = 0 ∨ 2147483647 < w * h * 4 then none else some (.fresh w h)

/-- The external libraries the renderer calls, as deterministic functions:
`fontdb` blob ingestion, the `image` decoder and Lanczos3 resizers
(returning straight RGBA8 pixels), and `cosmic_text`/`swash` shaping
(a function of the whole font database, the resolved family, the text and
the font size — shaping and the swash cache are deterministic in these);
and `fmtF32`, Rust's `Display` for `f32` (shortest round-trip decimal;
whole numbers print as their plain integer digits), used in the cache-key
`format!` strings. -/
structure RenderExts : Type where
  loadFontFaces : Str → List (List Str)
  decodeImage : Str → Option DecodedImg
  resizeExact : DecodedImg → Nat → Nat → List Px
  resizeToFill : DecodedImg → Nat → Nat → List Px
  shapeText : FontDb → Family → Str → Rat → List ShapedGlyph
  encodePng : BufContents → Option Str
  fmtF32 : Rat → Str

/-- Decimal digits of a `Nat` (fuel-structured so the kernel can evaluate
it; fuel `n + 1` always suffices since the argument shrinks by a factor of
ten per step). -/
def natDigitsAux : Nat → Nat → Str
  | 0, _ => []
  | f + 1, n => if n < 10 then [48 + n] else natDigitsAux f (n / 10) ++ [48 + n % 10]

/-- `format!("{}", n)` for a `u32`. -/
def natDigits (n : Nat) : Str := natDigitsAux (n + 1) n

/-- The background cache key `format!("bg_{}_{}_{}", background, w, h)`
(`w`, `h` are the `u32` canvas dimensions).  Backgrounds and image layers
share one `HashMap<String, Pixmap>` namespace, so these strings can collide
with image keys (e.g. background `"x"` on a 5×5 canvas and image source
`"bg_x"` at whole-valued 5×5 both produce `"bg_x_5_5"`). -/
def bgCacheKey (background : Str) (w h : Nat) : Str :=
  asBytes "bg_" ++ background ++ [95] ++ natDigits w ++ [95] ++ natDigits h

/-- The image-layer cache key `format!("{}_{}_{}", source, w, h)`; `w` and
`h` are `f32` fields printed with `Display` (the formatter is the external
`fmt` parameter). -/
def imgCacheKey (fmt : Rat → Str) (source : Str) (w h : Rat) : Str :=
  source ++ [95] ++ fmt w ++ [95] ++ fmt h

/-- Association-list lookup (first match wins), modelling `HashMap::get`. -/
def lookupA {α : Type} {β : Type} [DecidableEq α] (l : List (α × β)) (k : α) : Option β :=
  (l.find? (fun p => decide (p.1 = k))).map (fun p => p.2)

/-- The image cache: one string-keyed map shared by background and image
entries, as in the source. -/
abbrev Cache := List (Str × Pixmap)

/-- `HashMap::insert` (overwriting on lookup). -/
def insertC (c : Cache) (k : Str) (v : Pixmap) : Cache := (k, v) :: c

/-- The caller-supplied resource map (name to byte blob), modelled as an
association list in the `HashMap`'s (fixed but unspecified) iteration order. -/
abbrev Resources := List (Str × Str)

/-- `RenderError` (sigil-render/src/lib.rs, lines 19-38), plus `panicked`,
which models a Rust panic (process abort), not a returned value. -/
inductive RenderError
  | pixmapCreation
  | invalidColorFormat (s : Str)
  | invalidDimensions
  | fontError
  | imageError
  | encoding
  | panicked
deriving DecidableEq, Repr

/-- Diagnostics printed by the layer loop (`println!` warnings). -/
inductive Diag
  | resourceNotFound (name : Str)
  | imageDecodeFailed
  | imageZeroDim
  | glyphNoImage
  | glyphUnknownFormat (len : Nat)
deriving DecidableEq, Repr

/-- The renderer's long-lived state (`Renderer` fields: the font system's
database, the reusable pixel buffer, the image cache, and the set of
resource names already ingested as fonts).  The swash cache memoizes a
deterministic function and needs no state. -/
structure RendererState where
  fontDb : FontDb
  loaded_fonts : List Str
  pixmap_buffer : Option BufContents
  image_cache : Cache
deriving DecidableEq, Repr

/-- `Renderer::new()`: `FontSystem::new()` starts from the system font set
(a parameter here), nothing loaded, no buffer, empty cache. -/
def Renderer.new (sysFaces : List (List Str)) : RendererState :=
  { fontDb := ⟨sysFaces, none⟩, loaded_fonts := [], pixmap_buffer := none,
    image_cache := [] }

/-! ## Font ingestion and family resolution (render_raw, lines 67-105 and 229-276) -/

/-- Does the resource name end in `.ttf`, `.otf` or `.woff2`? -/
def isFontName (name : Str) : Bool :=
  (asBytes ".ttf").isSuffixOf name || (asBytes ".otf").isSuffixOf name ||
    (asBytes ".woff2").isSuffixOf name

/-- The font-loading loop: ingest each not-yet-loaded font-suffixed resource,
recording whether anything new was loaded. -/
def loadFonts (E : RenderExts) (db : FontDb) (loaded : List Str)
    (res : Resources) : FontDb × List Str × Bool :=
  res.foldl
    (fun acc nv =>
      if isFontName nv.1 ∧ nv.1 ∉ acc.2.1 then
        ({ acc.1 with faces := acc.1.faces ++ E.loadFontFaces nv.2 },
         acc.2.1 ++ [nv.1], true)
      else acc)
    (db, loaded, false)

/-- After new fonts load: point every generic family alias at the first
family name of the first face (in database order) that has one. -/
def setAliases (db : FontDb) : FontDb :=
  match db.faces.findSome? List.head? with
  | some fam => { db with aliasesSet := some fam }
  | none => db

/-- ASCII lowercasing, modelling `str::to_lowercase` on the ASCII names the
code compares (Unicode case folding is not modelled). -/
def asciiLower (s : Str) : Str :=
  s.map (fun b => if 65 ≤ b ∧ b ≤ 90 then b + 32 else b)

/-- Remove spaces (`replace(' ', "")`). -/
def removeSpaces (s : Str) : Str := s.filter (fun b => b ≠ 32)

/-- `str::split(',')`. -/
def splitComma : Str → List Str
  | [] => [[]]
  | b :: rest =>
    match splitComma rest with
    | [] => [[]]
    | t :: ts => if b = 44 then [] :: t :: ts else (b :: t) :: ts

/-- ASCII `str::trim` (the whitespace appearing in family lists). -/
def trimAscii (s : Str) : Str :=
  let ws : Nat → Bool := fun b => b = 32 || b = 9 || b = 10 || b = 11 || b = 12 || b = 13
  (s.dropWhile ws).reverse.dropWhile ws |>.reverse

/-- The family tokens: split `font_family` on commas and trim each token. -/
def familyTokens (s : Str) : List Str := (splitComma s).map trimAscii

/-- The face search of the default match arm: scan every family name of
every face; a name matches when it equals the token case-insensitively,
verbatim or with spaces removed; the last match encountered wins (the code
overwrites `found_name` without breaking). -/
def findFace (faces : List (List Str)) (f : Str) : Option Str :=
  let nq := removeSpaces (asciiLower f)
  faces.foldl
    (fun acc fam =>
      fam.foldl
        (fun acc2 name =>
          if removeSpaces (asciiLower name) = nq ∨ asciiLower name = asciiLower f
          then some name else acc2)
        acc)
    none

/-- The family-resolution loop over the comma-separated tokens: generic
names map to the generic families, otherwise the face list is searched;
the first token that resolves wins, and the fallback is sans-serif. -/
def resolveFamily (faces : List (List Str)) : List Str → Family
  | [] => .SansSerif
  | f :: rest =>
    let lf := asciiLower f
    if lf = asBytes "arial" ∨ lf = asBytes "sans-serif" ∨ lf = asBytes "sans serif"
        ∨ lf = asBytes "system-ui" ∨ lf = asBytes "-apple-system" then .SansSerif
    else if lf = asBytes "serif" then .Serif
    else if lf = asBytes "mono" ∨ lf = asBytes "monospace" then .Monospace
    else
      match findFace faces f with
      | some name => .Name name
      | none => resolveFamily faces rest

/-! ## Pixel conversions (the premultiplication loops in render_raw) -/

/-- Floor of a nonnegative rational to `Nat` (Rust `as u8` truncation; the
values below are nonnegative and below 256). -/
def ratFloorNat (q : Rat) : Nat := q.floor.toNat

/-- The premultiplication loop applied to decoded RGBA pixels:
`c' = (c as f32 * (a as f32 / 255)) as u8` per channel, alpha preserved
(lines 134-145 and 396-407; exact rational arithmetic stands in for f32). -/
def premultPx (p : Px) : Px :=
  ⟨p.r * p.a / 255, p.g * p.a / 255, p.b * p.a / 255, p.a⟩

/-- The alpha-mask glyph path (lines 311-325): each mask byte becomes one
premultiplied pixel of the text color scaled by the mask coverage. -/
def maskPixels (c : Color) (data : List Nat) : List Px :=
  data.map (fun m =>
    let rf : Rat := (c.r : Rat) / 255
    let gf : Rat := (c.g : Rat) / 255
    let bf : Rat := (c.b : Rat) / 255
    let af : Rat := (c.a : Rat) / 255
    let fa : Rat := af * ((m : Rat) / 255)
    ⟨ratFloorNat (rf * fa * 255), ratFloorNat (gf * fa * 255),
     ratFloorNat (bf * fa * 255), ratFloorNat (fa * 255)⟩)

/-- The 4-channel glyph path (lines 326-338): chunk the data into RGBA
quadruples and premultiply each (the data length is a multiple of 4 where
this is reached). -/
def premultChunks : List Nat → List Px
  | r :: g :: b :: a :: rest => premultPx ⟨r, g, b, a⟩ :: premultChunks rest
  | _ => []

/-- `f32 as u32`: saturating truncation toward zero. -/
def ratToU32 (q : Rat) : Nat :=
  if q ≤ 0 then 0 else min q.floor.toNat 4294967295

/-! ## The layer loop (render_raw, lines 174-496) -/

/-- The item's local size used for the rotation center: rect/image/slider
use their fields, text uses (0, 0). -/
def itemWH : Item → Rat × Rat
  | .Rect r => (r.width, r.height)
  | .Image i => (i.width, i.height)
  | .Text _ => (0, 0)
  | .Slider s => (s.width, s.height)

/-- The layer transform
`Transform::identity().post_translate(-cx,-cy).post_rotate(rot).post_translate(cx+x, cy+y)`. -/
def layerTransform (l : Layer) : Transform :=
  let wh := itemWH l.item
  let cx := wh.1 / 2
  let cy := wh.2 / 2
  ((Transform.identity.postTranslate (-cx) (-cy)).postRotate l.rotation).postTranslate
    (cx + l.x) (cy + l.y)

/-- Result of processing the background or a prefix of the layer loop:
the cache, the draw operations issued, the diagnostics printed, and the
error (if any) that aborted the call. -/
structure StepResult where
  cache : Cache
  ops : List DrawOp
  diags : List Diag
  err : Option RenderError
deriving DecidableEq, Repr

/-- The per-glyph body of the text branch (lines 290-361): skip glyphs
without a swash image and zero-sized glyphs, build the premultiplied glyph
tile from mask or RGBA data (skipping unknown layouts with a diagnostic),
and blit it under the layer transform pre-translated to the glyph origin. -/
def glyphOut (c : Color) (tf : Transform) (gl : ShapedGlyph) :
    List DrawOp × List Diag :=
  match gl.img with
  | none => ([], [.glyphNoImage])
  | some im =>
    if im.width = 0 ∨ im.height = 0 then ([], [])
    else
      let gx : Rat := (gl.px : Rat) + (im.left : Rat)
      let gy : Rat := gl.lineY + (gl.py : Rat) - (im.top : Rat)
      if im.data.length = im.width * im.height then
        match pixmapFromVec im.width im.height (maskPixels c im.data) with
        | some gp => ([.drawPixmap gp (tf.preTranslate gx gy)], [])
        | none => ([], [])
      else if im.data.length = im.width * im.height * 4 then
        match pixmapFromVec im.width im.height (premultChunks im.data) with
        | some gp => ([.drawPixmap gp (tf.preTranslate gx gy)], [])
        | none => ([], [])
      else ([], [.glyphUnknownFormat im.data.length])

/-- The drawing tail of the image branch (lines 420-452): build a pattern
paint over the pixmap and fill the (possibly rounded) rect through the
layer transform.  `Rect::from_xywh(0,0,w,h).unwrap()` panics on a negative
dimension (unreachable from states the renderer itself builds). -/
def drawImagePattern (c : Cache) (pix : Pixmap) (img : ImageItem)
    (tf : Transform) : StepResult :=
  match TSRect.from_xywh 0 0 img.width img.height with
  | none => ⟨c, [], [], some .panicked⟩
  | some dr =>
    let p? := if 0 < img.border_radius then create_rounded_rect_path dr img.border_radius
              else pathFinish [.pushRect dr]
    match p? with
    | some p => ⟨c, [.fillPathPattern p pix tf], [], none⟩
    | none => ⟨c, [], [], none⟩

/-- One iteration of the layer loop (lines 174-495): compute the layer
transform and dispatch on the item.  Note the loop never consults
`layer.visible`. -/
def stepLayer (E : RenderExts) (res : Resources) (db : FontDb) (c : Cache)
    (layer : Layer) : StepResult :=
  let tf := layerTransform layer
  match layer.item with
  | .Rect rect =>
    match parse_color rect.color with
    | .panicAbort => ⟨c, [], [], some .panicked⟩
    | .notColor => ⟨c, [], [], some (.invalidColorFormat rect.color)⟩
    | .ok col =>
      match TSRect.from_xywh 0 0 rect.width rect.height with
      | none => ⟨c, [], [], some .invalidDimensions⟩
      | some r =>
        if 0 < rect.border_radius then
          match create_rounded_rect_path r rect.border_radius with
          | some p => ⟨c, [.fillPath p col tf], [], none⟩
          | none => ⟨c, [], [], none⟩
        else ⟨c, [.fillRect r col tf], [], none⟩
  | .Text t =>
    match parse_color t.color with
    | .panicAbort => ⟨c, [], [], some .panicked⟩
    | .notColor => ⟨c, [], [], some (.invalidColorFormat t.color)⟩
    | .ok col =>
      let fam := resolveFamily db.faces (familyTokens t.font_family)
      let glyphs := E.shapeText db fam t.text t.font_size
      let outs := glyphs.map (glyphOut col tf)
      ⟨c, (outs.map Prod.fst).flatten, (outs.map Prod.snd).flatten, none⟩
  | .Image img =>
    let key := imgCacheKey E.fmtF32 img.source img.width img.height
    match lookupA c key with
    | some pix => drawImagePattern c pix img tf
    | none =>
      match lookupA res img.source with
      | none => ⟨c, [], [.resourceNotFound img.source], none⟩
      | some bytes =>
        match E.decodeImage bytes with
        | none => ⟨c, [], [.imageDecodeFailed], none⟩
        | some dimg =>
          let tw := ratToU32 img.width
          let th := ratToU32 img.height
          if tw = 0 ∨ th = 0 then ⟨c, [], [.imageZeroDim], none⟩
          else
            match pixmapFromVec tw th ((E.resizeExact dimg tw th).map premultPx) with
            | some pix => drawImagePattern (insertC c key pix) pix img tf
            | none => ⟨c, [], [], none⟩
  | .Slider sl =>
    match parse_color sl.background_color with
    | .panicAbort => ⟨c, [], [], some .panicked⟩
    | .notColor => ⟨c, [], [], some (.invalidColorFormat sl.background_color)⟩
    | .ok cb =>
      match parse_color sl.fill_color with
      | .panicAbort => ⟨c, [], [], some .panicked⟩
      | .notColor => ⟨c, [], [], some (.invalidColorFormat sl.fill_color)⟩
      | .ok cf =>
        match TSRect.from_xywh 0 0 sl.width sl.height with
        | none => ⟨c, [], [], some .invalidDimensions⟩
        | some bgr =>
          let bgOps :=
            if 0 < sl.border_radius then
              match create_rounded_rect_path bgr sl.border_radius with
              | some p => [DrawOp.fillPath p cb tf]
              | none => []
            else [DrawOp.fillRect bgr cb tf]
          let fill_width := sl.value / max sl.max_value 1 * sl.width
          if 0 < fill_width then
            match TSRect.from_xywh 0 0 fill_width sl.height with
            | none => ⟨c, bgOps, [], some .invalidDimensions⟩
            | some fr =>
              let fOps :=
                if 0 < sl.border_radius then
                  match create_rounded_rect_path fr sl.border_radius with
                  | some p => [DrawOp.fillPath p cf tf]
                  | none => []
                else [DrawOp.fillRect fr cf tf]
              ⟨c, bgOps ++ fOps, [], none⟩
          else ⟨c, bgOps, [], none⟩

/-- The layer loop: run each layer in order, threading the cache and
concatenating operations and diagnostics; an error stops the loop (the
operations already issued stay painted). -/
def runLayers (E : RenderExts) (res : Resources) (db : FontDb) :
    Cache → List Layer → StepResult
  | c, [] => ⟨c, [], [], none⟩
  | c, l :: rest =>
    let r := stepLayer E res db c l
    match r.err with
    | some _ => r
    | none =>
      let r2 := runLayers E res db r.cache rest
      ⟨r2.cache, r.ops ++ r2.ops, r.diags ++ r2.diags, r2.err⟩

/-- The background pass (lines 114-172): a parsable background color fills
the buffer; otherwise the background names a resource, fetched or built in
the image cache at canvas size (`resize_to_fill`, premultiplied) and blitted
at the origin with the identity transform; failing that, fill opaque black.
`IntSize::from_wh(w, h).unwrap()` would panic at a zero dimension — callers
reach this pass only after the buffer was created, so `w, h ≥ 1`. -/
def renderBackground (E : RenderExts) (res : Resources) (g : Sigil)
    (c : Cache) : StepResult :=
  match parse_color g.background with
  | .panicAbort => ⟨c, [], [], some .panicked⟩
  | .ok col => ⟨c, [.fillAll col], [], none⟩
  | .notColor =>
    let key := bgCacheKey g.background g.width g.height
    match lookupA c key with
    | some pix => ⟨c, [.drawPixmap pix .identity], [], none⟩
    | none =>
      match lookupA res g.background with
      | none => ⟨c, [.fillAll blackColor], [], none⟩
      | some bytes =>
        match E.decodeImage bytes with
        | none => ⟨c, [.fillAll blackColor], [], none⟩
        | some dimg =>
          if g.width = 0 ∨ g.height = 0 then ⟨c, [], [], some .panicked⟩
          else
            match pixmapFromVec g.width g.height
                ((E.resizeToFill dimg g.width g.height).map premultPx) with
            | some pix =>
              ⟨insertC c key pix, [.drawPixmap pix .identity], [], none⟩
            | none => ⟨c, [.fillAll blackColor], [], none⟩

/-- Decidable equality of `Except` values (componentwise). -/
instance {ε α : Type} [DecidableEq ε] [DecidableEq α] : DecidableEq (Except ε α) := fun x y =>
  match x, y with
  | .error a, .error b =>
    if h : a = b then .isTrue (by rw [h])
    else .isFalse (by intro he; injection he; exact h ‹_›)
  | .ok a, .ok b =>
    if h : a = b then .isTrue (by rw [h])
    else .isFalse (by intro he; injection he; exact h ‹_›)
  | .error _, .ok _ => .isFalse (by intro he; injection he)
  | .ok _, .error _ => .isFalse (by intro he; injection he)

/-- The full outcome of a `render_raw` call: the returned value (the
buffer's contents on success) and the renderer state afterwards, plus the
diagnostics printed.  On an error the buffer keeps the operations painted
before the abort (the real buffer was mutated in place). -/
structure RawOut where
  result : Except RenderError BufContents
  state : RendererState
  diags : List Diag
deriving DecidableEq, Repr

/-- `Renderer::render_raw` (lines 67-499): ingest fonts, (re)allocate the
buffer when absent or of different size, paint the background, run the
layer loop, and return the buffer data. -/
def render_raw (E : RenderExts) (st : RendererState) (g : Sigil)
    (res : Resources) : RawOut :=
  let fonts := loadFonts E st.fontDb st.loaded_fonts res
  let db := if fonts.2.2 then setAliases fonts.1 else fonts.1
  let needNew :=
    match st.pixmap_buffer with
    | none => true
    | some b => b.dims ≠ (g.width, g.height)
  let buf0 := if needNew then pixmapNew g.width g.height else st.pixmap_buffer
  match buf0 with
  | none =>
    ⟨.error .pixmapCreation,
     { fontDb := db, loaded_fonts := fonts.2.1, pixmap_buffer := none,
       image_cache := st.image_cache }, []⟩
  | some base =>
    let rbg := renderBackground E res g st.image_cache
    match rbg.err with
    | some e =>
      ⟨.error e,
       { fontDb := db, loaded_fonts := fonts.2.1,
         pixmap_buffer := some (.painted base rbg.ops),
         image_cache := rbg.cache }, rbg.diags⟩
    | none =>
      let rl := runLayers E res db rbg.cache g.layers
      let finalBuf := BufContents.painted base (rbg.ops ++ rl.ops)
      let st' : RendererState :=
        { fontDb := db, loaded_fonts := fonts.2.1,
          pixmap_buffer := some finalBuf, image_cache := rl.cache }
      match rl.err with
      | some e => ⟨.error e, st', rbg.diags ++ rl.diags⟩
      | none => ⟨.ok finalBuf, st', rbg.diags ++ rl.diags⟩

/-- `Renderer::render` (lines 501-508): `render_raw`, then PNG-encode the
buffer (the encoder is external; a failure surfaces as `EncodingError`). -/
def render (E : RenderExts) (st : RendererState) (g : Sigil)
    (res : Resources) : Except RenderError Str × RendererState × List Diag :=
  let out := render_raw E st g res
  match out.result with
  | .error e => (.error e, out.state, out.diags)
  | .ok buf =>
    match E.encodePng buf with
    | some png => (.ok png, out.state, out.diags)
    | none => (.error .encoding, out.state, out.diags)

/-! ## Partial pixel evaluator

The buffer contents denote actual pixels through `tiny_skia`'s documented
semantics.  The counterexample theorems below evaluate that denotation on
the exactly-representable fragment: whole-pixel axis-aligned geometry under
pure-translation transforms, opaque solid fills, and per-pixel source-over
blending of premultiplied RGBA8 (`d' = s + d·(255 − s_a)/255`, rounded to
the nearest byte).  Operations outside the fragment evaluate to `none`. -/

/-- A concrete pixel buffer (row-major). -/
structure PixBuf where
  w : Nat
  h : Nat
  data : List Px
deriving DecidableEq, Repr

/-- Nearest-byte rounding of `x / 255`. -/
def round255 (x : Nat) : Nat := (2 * x + 255) / 510

/-- Source-over on one channel of premultiplied data. -/
def blendCh (s d sa : Nat) : Nat := s + round255 (d * (255 - sa))

/-- Source-over on one premultiplied pixel. -/
def blendPx (s d : Px) : Px :=
  ⟨blendCh s.r d.r s.a, blendCh s.g d.g s.a, blendCh s.b d.b s.a,
   blendCh s.a d.a s.a⟩

/-- Premultiplied u8 pixel of a solid color. -/
def premultColor (c : Color) : Px :=
  ⟨round255 (c.r * c.a), round255 (c.g * c.a), round255 (c.b * c.a), c.a⟩

/-- A transform evaluates to a pure translation when every rotation in it
is by zero degrees. -/
def evalTransform : Transform → Option (Rat × Rat)
  | .identity => some (0, 0)
  | .postTranslate t dx dy => (evalTransform t).map (fun p => (p.1 + dx, p.2 + dy))
  | .postRotate t d => if d = 0 then evalTransform t else none
  | .preTranslate t dx dy => (evalTransform t).map (fun p => (p.1 + dx, p.2 + dy))

/-- A rational that is a whole number. -/
def ratInt (q : Rat) : Option Int := if q.den = 1 then some q.num else none

/-- Blend a pixmap over the buffer at an integral offset (clipped). -/
def blitBlend (buf : PixBuf) (pix : Pixmap) (ox oy : Int) : PixBuf :=
  { buf with data := buf.data.mapIdx (fun idx d =>
      let i : Int := (idx % buf.w : Nat)
      let j : Int := (idx / buf.w : Nat)
      let si := i - ox
      let sj := j - oy
      if 0 ≤ si ∧ si < (pix.w : Int) ∧ 0 ≤ sj ∧ sj < (pix.h : Int) then
        match pix.data[(sj.toNat * pix.w + si.toNat)]? with
        | some s => blendPx s d
        | none => d
      else d) }

/-- Evaluate one draw operation on the modelled fragment. -/
def applyOp (buf : PixBuf) : DrawOp → Option PixBuf
  | .fillAll c => some { buf with data := buf.data.map (fun _ => premultColor c) }
  | .fillRect r c tf => do
    let t ← evalTransform tf
    let x0 ← ratInt (r.x + t.1)
    let y0 ← ratInt (r.y + t.2)
    let wI ← ratInt r.w
    let hI ← ratInt r.h
    if c.a = 255 then
      some { buf with data := buf.data.mapIdx (fun idx p =>
        let i : Int := (idx % buf.w : Nat)
        let j : Int := (idx / buf.w : Nat)
        if x0 ≤ i ∧ i < x0 + wI ∧ y0 ≤ j ∧ j < y0 + hI then premultColor c else p) }
    else none
  | .drawPixmap pix tf => do
    let t ← evalTransform tf
    let ox ← ratInt t.1
    let oy ← ratInt t.2
    some (blitBlend buf pix ox oy)
  | .fillPathPattern p pix tf =>
    match p with
    | [.pushRect r] => do
      let t ← evalTransform tf
      let ox ← ratInt (r.x + t.1)
      let oy ← ratInt (r.y + t.2)
      let wI ← ratInt r.w
      let hI ← ratInt r.h
      if wI = (pix.w : Int) ∧ hI = (pix.h : Int) then some (blitBlend buf pix ox oy)
      else none
    | _ => none
  | .fillPath _ _ _ => none

/-- Evaluate buffer contents to pixels: a fresh buffer is zeroed
(transparent), painting folds the operations over the base. -/
def evalBuf : BufContents → Option PixBuf
  | .fresh w h => some ⟨w, h, List.replicate (w * h) ⟨0, 0, 0, 0⟩⟩
  | .painted base ops => do
    let b ← evalBuf base
    ops.foldlM applyOp b

/-! ## Statement-level helpers and concrete instances -/

/-- The string contains no left brace, so no placeholder can begin in it. -/
def strNoLB (s : Str) : Bool := !(s.contains 123)

/-- No substitutable string field of the item contains a left brace. -/
def itemNoLB : Item → Bool
  | .Text t => strNoLB t.text && strNoLB t.color
  | .Image i => strNoLB i.source
  | .Rect r => strNoLB r.color
  | .Slider s => strNoLB s.background_color && strNoLB s.fill_color

/-- No substitutable field of the scene contains a left brace (every
placeholder was replaced and no replacement introduced a new one). -/
def sceneNoLB (g : Sigil) : Bool :=
  strNoLB g.background && g.layers.all (fun l => itemNoLB l.item)

/-- The non-substitutable payload of an item: its variant together with
every numeric field and the font family — everything `resolve` must leave
alone. -/
inductive ItemFrame
  | textF (font_size : Rat) (font_family : Str)
  | imageF (width height border_radius : Rat)
  | rectF (width height border_radius : Rat)
  | sliderF (width height value max_value border_radius : Rat)
deriving DecidableEq, Repr

/-- Project an item to its non-substitutable payload. -/
def itemFrame : Item → ItemFrame
  | .Text t => .textF t.font_size t.font_family
  | .Image i => .imageF i.width i.height i.border_radius
  | .Rect r => .rectF r.width r.height r.border_radius
  | .Slider s => .sliderF s.width s.height s.value s.max_value s.border_radius

/-- The substitutable string fields of an item, in declaration order. -/
def itemStrings : Item → List Str
  | .Text t => [t.text, t.color]
  | .Image i => [i.source]
  | .Rect r => [r.color]
  | .Slider s => [s.background_color, s.fill_color]

/-- Everything of a layer that `resolve` must preserve. -/
def layerFrame (l : Layer) : Str × Rat × Rat × Rat × Bool × ItemFrame :=
  (l.id, l.x, l.y, l.rotation, l.visible, itemFrame l.item)

/-- The offending color string when the first failing check of the item —
in the code's evaluation order — is a color parse returning `None`
(rect and text parse their one color before anything else; a slider parses
`background_color` then `fill_color` before its rects). -/
def firstBadColor : Item → Option Str
  | .Rect r => if parse_color r.color = .notColor then some r.color else none
  | .Text t => if parse_color t.color = .notColor then some t.color else none
  | .Image _ => none
  | .Slider s =>
    match parse_color s.background_color with
    | .notColor => some s.background_color
    | .ok _ => if parse_color s.fill_color = .notColor then some s.fill_color else none
    | .panicAbort => none

/-- The font database and loaded-font set after the ingestion pass of
`render_raw` (the alias redirection happens only when new fonts loaded). -/
def renderFonts (E : RenderExts) (st : RendererState) (res : Resources) :
    FontDb × List Str :=
  let fonts := loadFonts E st.fontDb st.loaded_fonts res
  (if fonts.2.2 then setAliases fonts.1 else fonts.1, fonts.2.1)

/-- Inert external collaborators: nothing decodes, nothing shapes — an
environment with no usable images or fonts. -/
def noExts : RenderExts :=
  { loadFontFaces := fun _ => [],
    decodeImage := fun _ => none,
    resizeExact := fun _ _ _ => [],
    resizeToFill := fun _ _ _ => [],
    shapeText := fun _ _ _ _ => [],
    encodePng := fun _ => none,
    fmtF32 := fun q => natDigits q.num.toNat }

/-- Externals for the font-sensitivity counterexample: any font blob
contributes one face with family "F", and shaping yields one 1×1
full-coverage glyph exactly when the database has at least one face
(with no faces there is nothing to rasterize). -/
def fontExts : RenderExts :=
  { noExts with
    loadFontFaces := fun _ => [[asBytes "F"]],
    shapeText := fun db _ _ _ =>
      if db.faces.isEmpty then [] else [⟨0, 0, 0, some ⟨1, 1, 0, 0, [255]⟩⟩] }

/-- Externals for the buffer-reuse counterexample: the background resource
decodes, and resizing yields a single semi-transparent pixel
(RGBA (255,0,0,100), premultiplying to (100,0,0,100)). -/
def alphaBgExts : RenderExts :=
  { noExts with
    decodeImage := fun _ => some 0,
    resizeToFill := fun _ _ _ => [⟨255, 0, 0, 100⟩] }

/-- A 1×1 scene whose only layer is an invisible full-canvas white
rectangle over a black background. -/
def c1Layer : Layer := ⟨asBytes "hidden", 0, 0, 0, false, .Rect ⟨1, 1, asBytes "#ffffff", 0⟩⟩

/-- The invisible-layer scene. -/
def c1Scene : Sigil := ⟨1, 1, asBytes "#000000", [c1Layer]⟩

/-- The same scene with the invisible layer removed. -/
def c1SceneNo : Sigil := ⟨1, 1, asBytes "#000000", []⟩

/-- A scene whose background holds the placeholder of `c2Vars`. -/
def c2Scene : Sigil := ⟨1, 1, asBytes "{a}", []⟩

/-- A variable map whose replacement value contains the placeholder of its
own key. -/
def c2Vars : List (Str × Str) := [(asBytes "a", asBytes "x{a}")]

/-- A 1×1 black scene with one white text layer asking for `arial`. -/
def c3Scene : Sigil :=
  ⟨1, 1, asBytes "#000000",
   [⟨asBytes "t", 0, 0, 0, true, .Text ⟨asBytes "A", 12, asBytes "#ffffff", asBytes "arial"⟩⟩]⟩

/-- A scene with two rect layers: the first has a valid color but negative
width, the second an invalid color string. -/
def c5Scene : Sigil :=
  ⟨1, 1, asBytes "#000000",
   [⟨asBytes "d", 0, 0, 0, true, .Rect ⟨-1, 1, asBytes "#000000", 0⟩⟩,
    ⟨asBytes "c", 0, 0, 0, true, .Rect ⟨1, 1, asBytes "xx", 0⟩⟩]⟩

/-- An image layer whose source "a" will be absent from the resource map. -/
def c6Layer : Layer := ⟨asBytes "i", 0, 0, 0, true, .Image ⟨asBytes "a", 1, 1, 0⟩⟩

/-- A renderer state whose image cache is warm for `c6Layer`'s key
`"a_1_1"`, holding an opaque white 1×1 pixmap (as left by an earlier render
in which the resource existed). -/
def c6State : RendererState :=
  { Renderer.new [] with
    image_cache :=
      [(imgCacheKey noExts.fmtF32 (asBytes "a") 1 1, ⟨1, 1, [⟨255, 255, 255, 255⟩]⟩)] }

/-- The warm-cache scene. -/
def c6Scene : Sigil := ⟨1, 1, asBytes "#000000", [c6Layer]⟩

/-- The warm-cache scene without its image layer. -/
def c6SceneNo : Sigil := ⟨1, 1, asBytes "#000000", []⟩

/-- Key-collision scenario: an image layer whose source `"bg_x"` at
whole-valued 1×1 dimensions has cache key `"bg_x_1_1"` — the very string
under which a non-color background `"x"` on a 1×1 canvas is cached. -/
def c6bLayer : Layer := ⟨asBytes "i", 0, 0, 0, true, .Image ⟨asBytes "bg_x", 1, 1, 0⟩⟩

/-- The collision scene: background `"x"` (a resource, not a color), one
image layer with source `"bg_x"` absent from the resource map. -/
def c6bScene : Sigil := ⟨1, 1, asBytes "x", [c6bLayer]⟩

/-- The collision scene without its image layer. -/
def c6bSceneNo : Sigil := ⟨1, 1, asBytes "x", []⟩

/-- Resources for the collision scene: only the background blob `"x"`. -/
def c6bRes : Resources := [(asBytes "x", [1])]

/-- A slider layer at the origin: width 100, height 10, value 5 of 10,
black background, white fill, square corners. -/
def c7Layer : Layer :=
  ⟨asBytes "s", 0, 0, 0, true,
   .Slider ⟨100, 10, 5, 10, asBytes "#000000", asBytes "#ffffff", 0⟩⟩

/-- A 1×1 scene whose background names the resource "b" (not a color). -/
def c8Scene : Sigil := ⟨1, 1, asBytes "b", []⟩

/-- The resource map carrying the background blob. -/
def c8Res : Resources := [(asBytes "b", [1])]

/-- First render of the background-image scene on a fresh renderer. -/
def c8Out1 : RawOut := render_raw alphaBgExts (Renderer.new []) c8Scene c8Res

/-- Second render of the same scene on the same renderer. -/
def c8Out2 : RawOut := render_raw alphaBgExts c8Out1.state c8Scene c8Res

/-! ## Claim theorems -/

/-- Claim C1 (code bug): the compositor's layer loop does not skip layers
with `visible = false` — it never reads the flag.  Rendering a 1×1 black
scene whose only layer is an invisible full-canvas white rectangle paints
the rectangle: the pixel comes out white, while the same scene with the
layer removed leaves it black, so the two renders differ. -/
theorem C1_invisible_layer_rendered :
    c1Layer.visible = false ∧
    (render_raw noExts (Renderer.new []) c1Scene []).result.toOption.bind evalBuf
      = some ⟨1, 1, [⟨255, 255, 255, 255⟩]⟩ ∧
    (render_raw noExts (Renderer.new []) c1SceneNo []).result.toOption.bind evalBuf
      = some ⟨1, 1, [⟨0, 0, 0, 255⟩]⟩ ∧
    (render_raw noExts (Renderer.new []) c1Scene []).result
      ≠ (render_raw noExts (Renderer.new []) c1SceneNo []).result := by decide

/-- Claim C2, counterexample: with the map `a ↦ "x{a}"`, a background
`"{a}"` resolves to `"x{a}"` once and `"xx{a}"` twice — the replacement
value is re-scanned by the next pass, so resolution is not idempotent. -/
theorem C2_cex :
    (c2Scene.resolve c2Vars).background = asBytes "x{a}" ∧
    ((c2Scene.resolve c2Vars).resolve c2Vars).background = asBytes "xx{a}" ∧
    (c2Scene.resolve c2Vars).resolve c2Vars ≠ c2Scene.resolve c2Vars := by decide

/-- Claim C3, counterexample: adding the unreferenced resource `"f.ttf"`
(not the background, referenced by no layer) to the map changes the output:
the blob is ingested as a font, the generic aliases are redirected, and the
text layer now rasterizes a glyph — the pixel flips from black to white. -/
theorem C3_cex :
    isFontName (asBytes "f.ttf") = true ∧
    c3Scene.background ≠ asBytes "f.ttf" ∧
    c3Scene.layers.all (fun l =>
      match l.item with
      | .Image img => decide (img.source ≠ asBytes "f.ttf")
      | _ => true) = true ∧
    (render_raw fontExts (Renderer.new []) c3Scene
        [(asBytes "f.ttf", [0])]).result.toOption.bind evalBuf
      = some ⟨1, 1, [⟨255, 255, 255, 255⟩]⟩ ∧
    (render_raw fontExts (Renderer.new []) c3Scene []).result.toOption.bind evalBuf
      = some ⟨1, 1, [⟨0, 0, 0, 255⟩]⟩ ∧
    (render_raw fontExts (Renderer.new []) c3Scene [(asBytes "f.ttf", [0])]).result
      ≠ (render_raw fontExts (Renderer.new []) c3Scene []).result := by decide

/-- Claim C4, counterexample: `parse_color` accepts `"#+1+2+3"` — each
two-byte group goes through `u8::from_str_radix`, which tolerates a leading
`+` — although `+` is not a hexadecimal digit, so the claim's "remaining 6
characters are hexadecimal digits" condition is violated. -/
theorem C4_cex :
    parse_color (asBytes "#+1+2+3") = .ok ⟨1, 2, 3, 255⟩ ∧
    (asBytes "#+1+2+3").length = 7 ∧
    43 ∈ (asBytes "#+1+2+3").drop 1 ∧
    isHexDigit 43 = false := by decide

/-- Claim C5, counterexample: the scene contains a rect layer with the
unparsable color `"xx"`, yet the call returns `InvalidDimensions`, because
an earlier layer's negative width fails first — the first error in
evaluation order wins, not `InvalidColorFormat`. -/
theorem C5_cex :
    firstBadColor (Item.Rect ⟨1, 1, asBytes "xx", 0⟩) = some (asBytes "xx") ∧
    (⟨asBytes "c", 0, 0, 0, true, .Rect ⟨1, 1, asBytes "xx", 0⟩⟩ : Layer) ∈ c5Scene.layers ∧
    (render_raw noExts (Renderer.new []) c5Scene []).result = .error .invalidDimensions := by
  decide

/-- Claim C6, counterexample, two scenes.  Warm cache: the image layer's
source `"a"` is absent from the (empty) resource map, yet the layer is
painted, because the renderer's image cache is warm for its key `"a_1_1"`
from an earlier call — the pixel comes out white instead of the background
black of the scene without the layer.  Cold cache: even a fresh renderer
paints a "missing" layer, because backgrounds and image layers share one
string-keyed cache — the non-color background `"x"` of a 1×1 canvas is
cached under `"bg_x_1_1"`, exactly the key of the absent image source
`"bg_x"` at whole-valued 1×1, so the layer cache-hits the background's
pixmap and blends it a second time: (161,0,0,161) instead of the
(100,0,0,100) of the scene without the layer. -/
theorem C6_cex :
    (lookupA ([] : Resources) (asBytes "a") = none ∧
     (render_raw noExts c6State c6Scene []).result.toOption.bind evalBuf
       = some ⟨1, 1, [⟨255, 255, 255, 255⟩]⟩ ∧
     (render_raw noExts c6State c6SceneNo []).result.toOption.bind evalBuf
       = some ⟨1, 1, [⟨0, 0, 0, 255⟩]⟩ ∧
     (render_raw noExts c6State c6Scene []).result
       ≠ (render_raw noExts c6State c6SceneNo []).result) ∧
    (lookupA c6bRes (asBytes "bg_x") = none ∧
     (Renderer.new []).image_cache = [] ∧
     bgCacheKey c6bScene.background c6bScene.width c6bScene.height
       = imgCacheKey alphaBgExts.fmtF32 (asBytes "bg_x") 1 1 ∧
     (render_raw alphaBgExts (Renderer.new [])
         c6bScene c6bRes).result.toOption.bind evalBuf
       = some ⟨1, 1, [⟨161, 0, 0, 161⟩]⟩ ∧
     (render_raw alphaBgExts (Renderer.new [])
         c6bSceneNo c6bRes).result.toOption.bind evalBuf
       = some ⟨1, 1, [⟨100, 0, 0, 100⟩]⟩ ∧
     (render_raw alphaBgExts (Renderer.new []) c6bScene c6bRes).result
       ≠ (render_raw alphaBgExts (Renderer.new []) c6bSceneNo c6bRes).result) := by
  decide

/-- Claim C8 (code bug): rendering the same scene twice in a row on the
same renderer does not give byte-identical buffers when the background is a
semi-transparent image: the reused buffer is never cleared on that path, so
the second call blends the background over the first call's pixels —
(100,0,0,100) after the first call, (161,0,0,161) after the second. -/
theorem C8_buffer_not_cleared :
    c8Out1.result.toOption.bind evalBuf = some ⟨1, 1, [⟨100, 0, 0, 100⟩]⟩ ∧
    c8Out2.result.toOption.bind evalBuf = some ⟨1, 1, [⟨161, 0, 0, 161⟩]⟩ ∧
    c8Out2.result.toOption.bind evalBuf ≠ c8Out1.result.toOption.bind evalBuf := by
  decide

/-- Claim C9: for every rectangle and radius, the rounded-rectangle path is
the single closed contour of four straight edges joined by four quadratic
arcs, each arc's control point a rectangle corner and its endpoints on the
adjacent edges at the effective radius `min(radius, w/2, h/2)` from the
corner; an over-large radius is clamped silently, never rejected. -/
theorem C9_rounded_rect_path (rc : TSRect) (radius : Rat) :
    create_rounded_rect_path rc radius =
      some [PathCmd.moveTo (rc.x + min (min radius (rc.w / 2)) (rc.h / 2)) rc.y,
            PathCmd.lineTo (rc.x + rc.w - min (min radius (rc.w / 2)) (rc.h / 2)) rc.y,
            PathCmd.quadTo (rc.x + rc.w) rc.y (rc.x + rc.w)
              (rc.y + min (min radius (rc.w / 2)) (rc.h / 2)),
            PathCmd.lineTo (rc.x + rc.w)
              (rc.y + rc.h - min (min radius (rc.w / 2)) (rc.h / 2)),
            PathCmd.quadTo (rc.x + rc.w) (rc.y + rc.h)
              (rc.x + rc.w - min (min radius (rc.w / 2)) (rc.h / 2)) (rc.y + rc.h),
            PathCmd.lineTo (rc.x + min (min radius (rc.w / 2)) (rc.h / 2)) (rc.y + rc.h),
            PathCmd.quadTo rc.x (rc.y + rc.h) rc.x
              (rc.y + rc.h - min (min radius (rc.w / 2)) (rc.h / 2)),
            PathCmd.lineTo rc.x (rc.y + min (min radius (rc.w / 2)) (rc.h / 2)),
            PathCmd.quadTo rc.x rc.y (rc.x + min (min radius (rc.w / 2)) (rc.h / 2)) rc.y,
            PathCmd.close] ∧
    min (min radius (rc.w / 2)) (rc.h / 2) ≤ rc.w / 2 ∧
    min (min radius (rc.w / 2)) (rc.h / 2) ≤ rc.h / 2 ∧
    min (min radius (rc.w / 2)) (rc.h / 2) ≤ radius := by
  refine ⟨?_, le_trans (min_le_left _ _) (min_le_right _ _), min_le_right _ _,
    le_trans (min_le_left _ _) (min_le_left _ _)⟩
  simp [create_rounded_rect_path, pathFinish]

/-- Claim C10: `resolve` substitutes only in the background and the
substitutable string fields; the canvas size, the number and order of
layers, every layer's id, position, rotation and visibility, and every
non-string item field (sizes, radii, value, max_value, font size and
family) are preserved, and the substitutable fields are exactly the
originals run through `replace_vars`; `resolve` is a total function and
never fails. -/
theorem C10_resolve_frame (g : Sigil) (vars : List (Str × Str)) :
    (g.resolve vars).width = g.width ∧
    (g.resolve vars).height = g.height ∧
    (g.resolve vars).layers.length = g.layers.length ∧
    (g.resolve vars).layers.map layerFrame = g.layers.map layerFrame ∧
    (g.resolve vars).background = replace_vars g.background vars ∧
    (g.resolve vars).layers.map (fun l => itemStrings l.item)
      = g.layers.map (fun l => (itemStrings l.item).map (fun t => replace_vars t vars)) := by
  refine ⟨rfl, rfl, by simp [Sigil.resolve], ?_, rfl, ?_⟩
  · simp only [Sigil.resolve, List.map_map]
    refine List.map_congr_left (fun l _ => ?_)
    cases h : l.item <;>
      simp [Function.comp, resolveLayer, resolveItem, layerFrame, itemFrame, h]
  · simp only [Sigil.resolve, List.map_map]
    refine List.map_congr_left (fun l _ => ?_)
    cases h : l.item <;>
      simp [Function.comp, resolveLayer, resolveItem, itemStrings, h]

/-- A pattern whose first byte does not occur in the string never matches,
so replacement leaves the string unchanged, at any fuel. -/
theorem replaceAllFuel_not_mem (pat rep : Str) (b0 : Nat)
    (hp : pat.head? = some b0) :
    ∀ (fuel : Nat) (s : Str), b0 ∉ s → replaceAllFuel pat rep fuel s = s := by
  intro fuel
  induction fuel with
  | zero => intro s _; cases s <;> rfl
  | succ n ih =>
    intro s hs
    cases s with
    | nil => rfl
    | cons b rest =>
      have hbm : b0 ≠ b := fun he => hs (he ▸ List.mem_cons_self b rest)
      have hnp : ¬(pat ≠ [] ∧ pat.isPrefixOf (b :: rest) = true) := by
        rintro ⟨-, hpre⟩
        cases pat with
        | nil => simp at hp
        | cons p ps =>
          have hp0 : p = b0 := by simpa using hp
          rw [List.isPrefixOf_cons₂, Bool.and_eq_true, beq_iff_eq] at hpre
          exact hbm (hp0.symm.trans hpre.1)
      have hrest : b0 ∉ rest := fun hm => hs (List.mem_cons_of_mem _ hm)
      show (if pat ≠ [] ∧ pat.isPrefixOf (b :: rest) = true then
          rep ++ replaceAllFuel pat rep n ((b :: rest).drop pat.length)
        else b :: replaceAllFuel pat rep n rest) = b :: rest
      rw [if_neg hnp, ih rest hrest]

/-- A string without `'{'` is a fixed point of every placeholder
substitution. -/
theorem replace_vars_no_lb (vars : List (Str × Str)) (s : Str)
    (hs : 123 ∉ s) : replace_vars s vars = s := by
  induction vars with
  | nil => rfl
  | cons kv rest ih =>
    show replace_vars (replaceAll (123 :: (kv.1 ++ [125])) kv.2 s) rest = s
    rw [replaceAll, replaceAllFuel_not_mem (123 :: (kv.1 ++ [125])) kv.2 123 rfl _ s hs]
    exact ih

/-- `strNoLB` means the byte `'{'` is absent. -/
theorem strNoLB_not_mem {s : Str} (h : strNoLB s = true) : 123 ∉ s := by
  intro hm
  have : s.contains 123 = true := List.elem_iff.mpr hm
  rw [strNoLB, this] at h
  exact absurd h (by decide)

/-- An item whose substitutable fields contain no `'{'` is a fixed point of
`resolveItem`. -/
theorem resolveItem_no_lb (vars : List (Str × Str)) (it : Item)
    (h : itemNoLB it = true) : resolveItem vars it = it := by
  cases it with
  | Text t =>
    rw [itemNoLB, Bool.and_eq_true] at h
    simp [resolveItem, replace_vars_no_lb vars _ (strNoLB_not_mem h.1),
      replace_vars_no_lb vars _ (strNoLB_not_mem h.2)]
  | Image i =>
    rw [itemNoLB] at h
    simp [resolveItem, replace_vars_no_lb vars _ (strNoLB_not_mem h)]
  | Rect r =>
    rw [itemNoLB] at h
    simp [resolveItem, replace_vars_no_lb vars _ (strNoLB_not_mem h)]
  | Slider s =>
    rw [itemNoLB, Bool.and_eq_true] at h
    simp [resolveItem, replace_vars_no_lb vars _ (strNoLB_not_mem h.1),
      replace_vars_no_lb vars _ (strNoLB_not_mem h.2)]

/-- Claim C2, amended: resolution is idempotent whenever the once-resolved
scene's substitutable fields contain no `'{'` (in particular whenever every
placeholder was replaced on the first pass and no replacement value
introduced a placeholder); in general a replacement value is re-scanned by
later keys of the pass and by subsequent passes, so unconditional
idempotence fails. -/
theorem C2_resolve_idempotent (g : Sigil) (vars : List (Str × Str))
    (h : sceneNoLB (g.resolve vars) = true) :
    (g.resolve vars).resolve vars = g.resolve vars := by
  rw [sceneNoLB, Bool.and_eq_true] at h
  obtain ⟨hbg, hlayers⟩ := h
  have hmap : ∀ l ∈ (g.resolve vars).layers, resolveLayer vars l = l := by
    intro l hl
    have hil : itemNoLB l.item = true := List.all_eq_true.mp hlayers l hl
    cases l with
    | mk id x y rot vis item =>
      simp only [resolveLayer]
      rw [resolveItem_no_lb vars item hil]
  conv_lhs => rw [Sigil.resolve]
  rw [replace_vars_no_lb vars _ (strNoLB_not_mem hbg),
    List.map_congr_left hmap, List.map_id']

/-- Claim C2, amended, witness: a concrete scene and map for which the
once-resolved scene has no left brace, so the theorem applies. -/
theorem C2_resolve_idempotent_witness :
    sceneNoLB (c2Scene.resolve [(asBytes "a", asBytes "x")]) = true ∧
    (c2Scene.resolve [(asBytes "a", asBytes "x")]).resolve [(asBytes "a", asBytes "x")]
      = c2Scene.resolve [(asBytes "a", asBytes "x")] :=
  ⟨by decide, C2_resolve_idempotent c2Scene [(asBytes "a", asBytes "x")] (by decide)⟩

/-- Claim C7: for a slider layer whose colors parse and whose background
rect is valid, the step paints the background rect and then, exactly when
`fill_width = value / max(max_value, 1) · width` is strictly positive, the
fill rect of that width — a zero or negative fill width paints nothing and
raises no error — and both rects are rounded by the same `border_radius`. -/
theorem C7_slider_fill (E : RenderExts) (res : Resources) (db : FontDb)
    (c : Cache) (l : Layer) (sl : SliderItem) (cb cf : Color)
    (hit : l.item = .Slider sl)
    (hb : parse_color sl.background_color = .ok cb)
    (hf : parse_color sl.fill_color = .ok cf)
    (hw : 0 ≤ sl.width) (hh : 0 ≤ sl.height) :
    stepLayer E res db c l =
      ⟨c,
       (if 0 < sl.border_radius then
          match create_rounded_rect_path ⟨0, 0, sl.width, sl.height⟩ sl.border_radius with
          | some p => [DrawOp.fillPath p cb (layerTransform l)]
          | none => []
        else [DrawOp.fillRect ⟨0, 0, sl.width, sl.height⟩ cb (layerTransform l)]) ++
       (if 0 < sl.value / max sl.max_value 1 * sl.width then
          if 0 < sl.border_radius then
            match create_rounded_rect_path
                ⟨0, 0, sl.value / max sl.max_value 1 * sl.width, sl.height⟩
                sl.border_radius with
            | some p => [DrawOp.fillPath p cf (layerTransform l)]
            | none => []
          else [DrawOp.fillRect ⟨0, 0, sl.value / max sl.max_value 1 * sl.width, sl.height⟩
                  cf (layerTransform l)]
        else []),
       [], none⟩ := by
  cases l with
  | mk id x y rot vis item =>
    cases hit
    rw [stepLayer]
    simp only [hb, hf]
    split
    · next heq => simp [TSRect.from_xywh, hw, hh] at heq
    · next bgr heq =>
      have hbgr : bgr = ⟨0, 0, sl.width, sl.height⟩ := by
        simp [TSRect.from_xywh, hw, hh] at heq
        exact heq.symm
      subst hbgr
      by_cases hpos : 0 < sl.value / max sl.max_value 1 * sl.width
      · rw [if_pos hpos, if_pos hpos]
        split
        · next heq2 => simp [TSRect.from_xywh, le_of_lt hpos, hh] at heq2
        · next fr heq2 =>
          have hfr : fr = ⟨0, 0, sl.value / max sl.max_value 1 * sl.width, sl.height⟩ := by
            simp [TSRect.from_xywh, le_of_lt hpos, hh] at heq2
            exact heq2.symm
          subst hfr
          rfl
      · rw [if_neg hpos, if_neg hpos]
        simp

/-- Claim C7, witness: the half-full slider (width 100, value 5 of 10)
paints a 100×10 black background rect and a 50×10 white fill rect. -/
theorem C7_slider_fill_witness :
    stepLayer noExts [] ⟨[], none⟩ [] c7Layer =
      ⟨[], [DrawOp.fillRect ⟨0, 0, 100, 10⟩ ⟨0, 0, 0, 255⟩ (layerTransform c7Layer),
            DrawOp.fillRect ⟨0, 0, 50, 10⟩ ⟨255, 255, 255, 255⟩ (layerTransform c7Layer)],
       [], none⟩ := by
  have h := C7_slider_fill noExts [] ⟨[], none⟩ [] c7Layer
    ⟨100, 10, 5, 10, asBytes "#000000", asBytes "#ffffff", 0⟩
    ⟨0, 0, 0, 255⟩ ⟨255, 255, 255, 255⟩ rfl (by decide) (by decide) (by decide) (by decide)
  rw [h]
  decide

/-- Hexadecimal digit bytes are ASCII. -/
theorem isHexDigit_lt128 {b : Nat} (h : isHexDigit b = true) : b < 128 := by
  rw [isHexDigit] at h
  simp only [Bool.or_eq_true, Bool.and_eq_true, decide_eq_true_eq] at h
  omega

/-- Every byte of a string accepted by `u8::from_str_radix(_, 16)` is ASCII
(a hex digit or the leading `+`). -/
theorem fromStrRadix16_bytes_lt {l : Str} {v : Nat}
    (h : fromStrRadix16 l = some v) : ∀ b ∈ l, b < 128 := by
  intro b hb
  rw [fromStrRadix16] at h
  by_cases h43 : l.head? = some 43
  · rw [if_pos h43] at h
    have hall : l.tail.all isHexDigit = true := by
      by_cases he : l.tail = []
      · rw [if_pos he] at h; cases h
      · rw [if_neg he] at h
        by_cases hx : l.tail.all isHexDigit
        · exact hx
        · rw [if_neg hx] at h; cases h
    cases l with
    | nil => cases hb
    | cons a rest =>
      have ha : a = 43 := by simpa using h43
      rcases List.mem_cons.mp hb with rfl | hbr
      · omega
      · exact isHexDigit_lt128 (List.all_eq_true.mp hall b hbr)
  · rw [if_neg h43] at h
    have hall : l.all isHexDigit = true := by
      by_cases he : l = []
      · subst he; cases hb
      · rw [if_neg he] at h
        by_cases hx : l.all isHexDigit
        · exact hx
        · rw [if_neg hx] at h; cases h
    exact isHexDigit_lt128 (List.all_eq_true.mp hall b hb)

/-- The head of `drop` is indexing. -/
theorem drop_head? (l : Str) (n : Nat) : (l.drop n).head? = l[n]? := by
  induction l generalizing n with
  | nil => cases n <;> rfl
  | cons a rest ih =>
    cases n with
    | zero => simp
    | succ m => rw [List.drop_succ_cons, List.getElem?_cons_succ]; exact ih m

/-- The head of a two-byte slice is the byte at its start. -/
theorem sliceB_head? (s : Str) (i : Nat) : (sliceB s i (i + 2)).head? = s[i]? := by
  rw [sliceB, show i + 2 - i = 2 from by omega]
  cases hd : s.drop i with
  | nil => rw [← drop_head?, hd]; rfl
  | cons a rest => rw [← drop_head?, hd]; rfl

/-- If the two-byte group at `i` parses, then `i` is a char boundary (its
byte is ASCII, hence not a continuation byte). -/
theorem isBnd_of_radix {s : Str} {i v : Nat} (hi : i < s.length)
    (h : fromStrRadix16 (sliceB s i (i + 2)) = some v) : isBnd s i = true := by
  have hsome : s[i]? = some s[i] := List.getElem?_eq_getElem hi
  have hmem : s[i] ∈ sliceB s i (i + 2) := by
    have hh : (sliceB s i (i + 2)).head? = some s[i] := by rw [sliceB_head?, hsome]
    cases hsl : sliceB s i (i + 2) with
    | nil => rw [hsl] at hh; cases hh
    | cons a rest =>
      rw [hsl] at hh
      have : a = s[i] := by simpa using hh
      exact this ▸ List.mem_cons_self a rest
  have hlt : s[i] < 128 := fromStrRadix16_bytes_lt h _ hmem
  have hno : ¬(128 ≤ s[i]) := by omega
  rw [isBnd, hsome]
  simp [hno]

/-- Claim C4, amended: `parse_color(s)` returns a color exactly when `s` is
7 bytes long, starts with `'#'`, and each of the three two-byte groups is
accepted by `u8::from_str_radix(_, 16)` — two hex digits, or a `'+'`
followed by one hex digit — in which case the result is the opaque color
(r, g, b, 255); it panics (rather than returning) exactly when a 7-byte
string starting with `'#'` has a multi-byte character straddling offset 1
or 3, or parses its first group but straddles offset 5; every other string
yields `None`. -/
theorem C4_parse_color_characterization (s : Str) :
    (∀ col : Color, parse_color s = .ok col ↔
      (s.length = 7 ∧ s.head? = some 35 ∧
       fromStrRadix16 (sliceB s 1 3) = some col.r ∧
       fromStrRadix16 (sliceB s 3 5) = some col.g ∧
       fromStrRadix16 (sliceB s 5 7) = some col.b ∧ col.a = 255)) ∧
    (parse_color s = .panicAbort ↔
      (s.head? = some 35 ∧ s.length = 7 ∧
        (isBnd s 1 = false ∨ isBnd s 3 = false ∨
         ((∃ r, fromStrRadix16 (sliceB s 1 3) = some r) ∧ isBnd s 5 = false)))) := by
  by_cases hpre : s.head? = some 35 ∧ s.length = 7
  case neg =>
    have hP : parse_color s = .notColor := by
      rw [parse_color, if_pos (by tauto)]
    rw [hP]
    constructor
    · intro col
      constructor
      · intro he; cases he
      · rintro ⟨h7, h35, -⟩; exact absurd ⟨h35, h7⟩ hpre
    · constructor
      · intro he; cases he
      · rintro ⟨h35, h7, -⟩; exact absurd ⟨h35, h7⟩ hpre
  case pos =>
    obtain ⟨h35, h7⟩ := hpre
    have hne : ¬(¬(s.head? = some 35) ∨ s.length ≠ 7) := by tauto
    have hb7 : isBnd s 7 = true := by
      rw [isBnd]
      simp [h7]
    by_cases hb13 : isBnd s 1 = true ∧ isBnd s 3 = true
    case neg =>
      have hP : parse_color s = .panicAbort := by
        rw [parse_color, if_neg hne, if_pos hb13]
      rw [hP]
      constructor
      · intro col
        constructor
        · intro he; cases he
        · rintro ⟨-, -, hr, hg, -, -⟩
          exact absurd ⟨isBnd_of_radix (by omega) hr, isBnd_of_radix (by omega) hg⟩ hb13
      · constructor
        · intro _
          refine ⟨h35, h7, ?_⟩
          rcases Classical.not_and_iff_or_not_not.mp hb13 with h | h
          · exact Or.inl (Bool.eq_false_iff.mpr h)
          · exact Or.inr (Or.inl (Bool.eq_false_iff.mpr h))
        · intro _; rfl
    case pos =>
      cases hr : fromStrRadix16 (sliceB s 1 3) with
      | none =>
        have hP : parse_color s = .notColor := by
          simp [parse_color, hne, hb13.1, hb13.2, hr]
        rw [hP]
        constructor
        · intro col
          constructor
          · intro he; cases he
          · rintro ⟨-, -, hr2, -⟩; cases hr2
        · constructor
          · intro he; cases he
          · rintro ⟨-, -, h | h | ⟨⟨r, hr2⟩, -⟩⟩
            · rw [hb13.1] at h; cases h
            · rw [hb13.2] at h; cases h
            · cases hr2
      | some r =>
        by_cases hb5 : isBnd s 5 = true
        case neg =>
          have hb5f : isBnd s 5 = false := Bool.eq_false_iff.mpr hb5
          have hP : parse_color s = .panicAbort := by
            simp [parse_color, hne, hb13.1, hb13.2, hr, hb5f]
          rw [hP]
          constructor
          · intro col
            constructor
            · intro he; cases he
            · rintro ⟨-, -, -, -, hbv, -⟩
              exact absurd (isBnd_of_radix (by omega) hbv) hb5
          · constructor
            · intro _
              exact ⟨h35, h7, Or.inr (Or.inr ⟨⟨r, rfl⟩, hb5f⟩)⟩
            · intro _; rfl
        case pos =>
          cases hg : fromStrRadix16 (sliceB s 3 5) with
          | none =>
            have hP : parse_color s = .notColor := by
              simp [parse_color, hne, hb13.1, hb13.2, hr, hb5, hg]
            rw [hP]
            constructor
            · intro col
              constructor
              · intro he; cases he
              · rintro ⟨-, -, -, hg2, -⟩; cases hg2
            · constructor
              · intro he; cases he
              · rintro ⟨-, -, h | h | ⟨-, h⟩⟩
                · rw [hb13.1] at h; cases h
                · rw [hb13.2] at h; cases h
                · rw [hb5] at h; cases h
          | some gv =>
            cases hbv : fromStrRadix16 (sliceB s 5 7) with
            | none =>
              have hP : parse_color s = .notColor := by
                simp [parse_color, hne, hb13.1, hb13.2, hr, hb5, hb7, hg, hbv]
              rw [hP]
              constructor
              · intro col
                constructor
                · intro he; cases he
                · rintro ⟨-, -, -, -, hb2, -⟩; cases hb2
              · constructor
                · intro he; cases he
                · rintro ⟨-, -, h | h | ⟨-, h⟩⟩
                  · rw [hb13.1] at h; cases h
                  · rw [hb13.2] at h; cases h
                  · rw [hb5] at h; cases h
            | some bv =>
              have hP : parse_color s = .ok ⟨r, gv, bv, 255⟩ := by
                simp [parse_color, hne, hb13.1, hb13.2, hr, hb5, hb7, hg, hbv]
              rw [hP]
              constructor
              · intro col
                constructor
                · intro he
                  cases he
                  exact ⟨h7, h35, rfl, rfl, rfl, rfl⟩
                · intro hcol
                  cases col with
                  | mk cr cg cb ca =>
                    obtain ⟨-, -, hr2, hg2, hb2, ha⟩ := hcol
                    simp only [] at hr2 hg2 hb2 ha
                    cases hr2
                    cases hg2
                    cases hb2
                    cases ha
                    rfl
              · constructor
                · intro he; cases he
                · rintro ⟨-, -, h | h | ⟨-, h⟩⟩
                  · rw [hb13.1] at h; cases h
                  · rw [hb13.2] at h; cases h
                  · rw [hb5] at h; cases h

/-- Prepending an entry under a different key leaves every other lookup
unchanged. -/
theorem lookupA_cons_ne {α β : Type} [DecidableEq α] {name k : α} (v : β)
    (l : List (α × β)) (h : k ≠ name) :
    lookupA ((name, v) :: l) k = lookupA l k := by
  rw [lookupA, lookupA, List.find?_cons_of_neg]
  simp only [decide_eq_true_eq]
  exact fun he => h he.symm

/-- A non-font-suffixed entry is skipped by the font-ingestion loop. -/
theorem loadFonts_cons_nonfont (E : RenderExts) (db : FontDb) (ld : List Str)
    (res : Resources) (name bytes : Str) (h : isFontName name = false) :
    loadFonts E db ld ((name, bytes) :: res) = loadFonts E db ld res := by
  rw [loadFonts, loadFonts, List.foldl_cons, if_neg]
  rintro ⟨hf, -⟩
  rw [h] at hf
  cases hf

/-- The background pass reads the resource map only at the background name. -/
theorem renderBackground_cons (E : RenderExts) (res : Resources) (g : Sigil)
    (c : Cache) (name bytes : Str) (h : g.background ≠ name) :
    renderBackground E ((name, bytes) :: res) g c = renderBackground E res g c := by
  rw [renderBackground, renderBackground, lookupA_cons_ne bytes res h]

/-- A layer step reads the resource map only at its image source. -/
theorem stepLayer_cons (E : RenderExts) (res : Resources) (db : FontDb)
    (c : Cache) (l : Layer) (name bytes : Str)
    (h : ∀ img : ImageItem, l.item = .Image img → img.source ≠ name) :
    stepLayer E ((name, bytes) :: res) db c l = stepLayer E res db c l := by
  cases hit : l.item with
  | Image img =>
    simp only [stepLayer, hit]
    rw [lookupA_cons_ne bytes res (h img hit)]
  | Text t => simp only [stepLayer, hit]
  | Rect r => simp only [stepLayer, hit]
  | Slider sl => simp only [stepLayer, hit]

/-- The layer loop reads the resource map only at the image sources of its
layers. -/
theorem runLayers_cons (E : RenderExts) (res : Resources) (name bytes : Str) :
    ∀ ls : List Layer,
      (∀ l ∈ ls, ∀ img : ImageItem, l.item = .Image img → img.source ≠ name) →
      ∀ (db : FontDb) (c : Cache),
        runLayers E ((name, bytes) :: res) db c ls = runLayers E res db c ls := by
  intro ls
  induction ls with
  | nil => intro _ db c; rfl
  | cons l rest ih =>
    intro h db c
    simp only [runLayers]
    rw [stepLayer_cons E res db c l name bytes (h l (List.mem_cons_self l rest)),
      ih (fun l' hl' => h l' (List.mem_cons_of_mem l hl')) db
        (stepLayer E res db c l).cache]

/-- Claim C3, amended: adding an extra resource entry whose name is not
font-suffixed (`.ttf`/`.otf`/`.woff2`), is not the scene background, and is
the source of no image layer leaves the render outcome — returned value,
renderer state, and diagnostics — unchanged.  (A font-suffixed extra entry
is ingested into the font database and can change text rendering, as the
counterexample shows.) -/
theorem C3_unused_resource_identity (E : RenderExts) (st : RendererState)
    (g : Sigil) (res : Resources) (name bytes : Str)
    (hfont : isFontName name = false)
    (hbg : g.background ≠ name)
    (href : ∀ l ∈ g.layers, ∀ img : ImageItem, l.item = .Image img → img.source ≠ name) :
    render_raw E st g ((name, bytes) :: res) = render_raw E st g res := by
  rw [render_raw, render_raw,
    loadFonts_cons_nonfont E st.fontDb st.loaded_fonts res name bytes hfont,
    renderBackground_cons E res g st.image_cache name bytes hbg]
  simp only [runLayers_cons E res name bytes g.layers href]

/-- Claim C3, amended, witness: a concrete non-font extra entry ("x.png")
added to an empty map leaves a concrete render unchanged. -/
theorem C3_unused_resource_identity_witness :
    render_raw noExts (Renderer.new []) c1SceneNo [(asBytes "x.png", [0])]
      = render_raw noExts (Renderer.new []) c1SceneNo [] :=
  C3_unused_resource_identity noExts (Renderer.new []) c1SceneNo []
    (asBytes "x.png") [0] (by decide) (by decide)
    (by intro l hl img hitem hsrc; cases hl)

/-- The layer loop splits over append when the first part errs nowhere. -/
theorem runLayers_append_split (E : RenderExts) (res : Resources) (db : FontDb) :
    ∀ (ls1 : List Layer) (c : Cache), (runLayers E res db c ls1).err = none →
      ∀ ls2 : List Layer,
        runLayers E res db c (ls1 ++ ls2) =
          ⟨(runLayers E res db (runLayers E res db c ls1).cache ls2).cache,
           (runLayers E res db c ls1).ops
             ++ (runLayers E res db (runLayers E res db c ls1).cache ls2).ops,
           (runLayers E res db c ls1).diags
             ++ (runLayers E res db (runLayers E res db c ls1).cache ls2).diags,
           (runLayers E res db (runLayers E res db c ls1).cache ls2).err⟩ := by
  intro ls1
  induction ls1 with
  | nil =>
    intro c _ ls2
    simp [runLayers]
  | cons l rest ih =>
    intro c herr ls2
    cases he : (stepLayer E res db c l).err with
    | some e =>
      exfalso
      simp only [runLayers, he] at herr
      simp at herr
    | none =>
      simp only [runLayers, List.cons_append, List.append_eq, he] at herr ⊢
      rw [ih (stepLayer E res db c l).cache herr ls2]
      simp [List.append_assoc]

/-- A layer whose first failing check is a color parse errs with
`InvalidColorFormat` of that color, before painting anything or touching
the cache. -/
theorem stepLayer_bad_color (E : RenderExts) (res : Resources) (db : FontDb)
    (c : Cache) (l : Layer) (cstr : Str)
    (h : firstBadColor l.item = some cstr) :
    stepLayer E res db c l = ⟨c, [], [], some (.invalidColorFormat cstr)⟩ := by
  cases hit : l.item with
  | Rect r =>
    rw [hit, firstBadColor] at h
    by_cases hp : parse_color r.color = .notColor
    · rw [if_pos hp] at h
      cases h
      simp [stepLayer, hit, hp]
    · rw [if_neg hp] at h; cases h
  | Image i => rw [hit, firstBadColor] at h; cases h
  | Text t =>
    rw [hit, firstBadColor] at h
    by_cases hp : parse_color t.color = .notColor
    · rw [if_pos hp] at h
      cases h
      simp [stepLayer, hit, hp]
    · rw [if_neg hp] at h; cases h
  | Slider sl =>
    rw [hit, firstBadColor] at h
    cases hb : parse_color sl.background_color with
    | notColor =>
      simp only [hb] at h
      cases h
      simp [stepLayer, hit, hb]
    | panicAbort => simp only [hb] at h; cases h
    | ok cb =>
      simp only [hb] at h
      by_cases hf : parse_color sl.fill_color = .notColor
      · rw [if_pos hf] at h
        cases h
        simp [stepLayer, hit, hb, hf]
      · rw [if_neg hf] at h; cases h

/-- The background pass never errs unless its color parse panics (given a
nonzero canvas). -/
theorem renderBackground_no_err (E : RenderExts) (res : Resources) (g : Sigil)
    (c : Cache) (hbg : parse_color g.background ≠ .panicAbort)
    (hw : 1 ≤ g.width) (hh : 1 ≤ g.height) :
    (renderBackground E res g c).err = none := by
  simp only [renderBackground]
  split
  · next heq => exact absurd heq hbg
  all_goals try rfl
  split
  all_goals try rfl
  split
  all_goals try rfl
  split
  all_goals try rfl
  rw [if_neg (by omega : ¬(g.width = 0 ∨ g.height = 0))]
  split <;> rfl

/-- `Pixmap::new` succeeds on a nonzero canvas of bounded byte size. -/
theorem pixmapNew_some (w h : Nat) (hw : 1 ≤ w) (hh : 1 ≤ h)
    (hsz : w * h * 4 ≤ 2147483647) : pixmapNew w h = some (.fresh w h) := by
  rw [pixmapNew, if_neg]
  rintro (h0 | h0 | h0) <;> omega

/-- Claim C5, amended: a scene layer whose first failing check — in the
code's evaluation order — is a color parse aborts `render_raw` and `render`
with `InvalidColorFormat` of that color string, provided pixmap creation
succeeds, the background parse does not panic, and every earlier layer
processed without error.  (Within a layer, colors are parsed before
dimensions, and a slider's background color before its fill color; an
earlier failure of any kind is returned instead, as the counterexample
shows.) -/
theorem C5_first_bad_color_aborts (E : RenderExts) (st : RendererState)
    (g : Sigil) (res : Resources) (pre post : List Layer) (l : Layer) (cstr : Str)
    (hsplit : g.layers = pre ++ l :: post)
    (hbad : firstBadColor l.item = some cstr)
    (hbgp : parse_color g.background ≠ .panicAbort)
    (hw : 1 ≤ g.width) (hh : 1 ≤ g.height)
    (hsz : g.width * g.height * 4 ≤ 2147483647)
    (hpre : (runLayers E res (renderFonts E st res).1
        (renderBackground E res g st.image_cache).cache pre).err = none) :
    (render_raw E st g res).result = .error (.invalidColorFormat cstr) ∧
    (render E st g res).1 = .error (.invalidColorFormat cstr) := by
  have hdb : (renderFonts E st res).1
      = (if (loadFonts E st.fontDb st.loaded_fonts res).2.2 = true then
          setAliases (loadFonts E st.fontDb st.loaded_fonts res).1
        else (loadFonts E st.fontDb st.loaded_fonts res).1) := rfl
  rw [hdb] at hpre
  have hmain : (render_raw E st g res).result = .error (.invalidColorFormat cstr) := by
    simp only [render_raw]
    split
    · next heq =>
      exfalso
      by_cases hc : (match st.pixmap_buffer with
          | none => true
          | some b => decide (b.dims ≠ (g.width, g.height))) = true
      · rw [if_pos hc, pixmapNew_some g.width g.height hw hh hsz] at heq
        cases heq
      · rw [if_neg hc] at heq
        cases hpb : st.pixmap_buffer with
        | none => rw [hpb] at hc; simp at hc
        | some b => rw [hpb] at heq; cases heq
    · next base hbase =>
      split
      · next e heq =>
        rw [renderBackground_no_err E res g st.image_cache hbgp hw hh] at heq
        cases heq
      · next heq =>
        have hrun : (runLayers E res
            (if (loadFonts E st.fontDb st.loaded_fonts res).2.2 = true then
              setAliases (loadFonts E st.fontDb st.loaded_fonts res).1
            else (loadFonts E st.fontDb st.loaded_fonts res).1)
            (renderBackground E res g st.image_cache).cache g.layers).err
            = some (.invalidColorFormat cstr) := by
          rw [hsplit,
            runLayers_append_split E res _ pre
              (renderBackground E res g st.image_cache).cache hpre (l :: post)]
          simp only [runLayers,
            stepLayer_bad_color E res _
              (runLayers E res _ (renderBackground E res g st.image_cache).cache pre).cache
              l cstr hbad]
        split
        · next e heq2 =>
          rw [hrun] at heq2
          cases heq2
          rfl
        · next heq2 =>
          rw [hrun] at heq2
          cases heq2
  refine ⟨hmain, ?_⟩
  simp only [render, hmain]

/-- Claim C5, amended, witness: a one-layer scene whose rect color is
`"xx"` (first failing check) aborts with `InvalidColorFormat "xx"`. -/
theorem C5_first_bad_color_aborts_witness :
    (render_raw noExts (Renderer.new [])
        ⟨1, 1, asBytes "#000000",
         [⟨asBytes "c", 0, 0, 0, true, .Rect ⟨1, 1, asBytes "xx", 0⟩⟩]⟩ []).result
      = .error (.invalidColorFormat (asBytes "xx")) :=
  (C5_first_bad_color_aborts noExts (Renderer.new [])
    ⟨1, 1, asBytes "#000000",
     [⟨asBytes "c", 0, 0, 0, true, .Rect ⟨1, 1, asBytes "xx", 0⟩⟩]⟩ []
    [] [] ⟨asBytes "c", 0, 0, 0, true, .Rect ⟨1, 1, asBytes "xx", 0⟩⟩
    (asBytes "xx") rfl (by decide) (by decide) (by decide) (by decide)
    (by decide) (by decide)).1

/-- An image layer whose source is absent (or undecodable) and whose cache
key is cold is skipped: no operation, no cache change, no error — only a
diagnostic. -/
theorem stepLayer_missing_source (E : RenderExts) (res : Resources)
    (db : FontDb) (c : Cache) (L : Layer) (img : ImageItem)
    (hitem : L.item = .Image img)
    (hmiss : lookupA res img.source = none ∨
      ∃ bs, lookupA res img.source = some bs ∧ E.decodeImage bs = none)
    (hkey : lookupA c
      (imgCacheKey E.fmtF32 img.source img.width img.height) = none) :
    ∃ d, stepLayer E res db c L = ⟨c, [], [d], none⟩ := by
  rcases hmiss with hm | ⟨bs, hl, hd⟩
  · exact ⟨.resourceNotFound img.source, by simp [stepLayer, hitem, hkey, hm]⟩
  · exact ⟨.imageDecodeFailed, by simp [stepLayer, hitem, hkey, hl, hd]⟩

/-- The image-pattern drawing tail never touches the cache. -/
theorem drawImagePattern_cache (c : Cache) (pix : Pixmap) (img : ImageItem)
    (tf : Transform) : (drawImagePattern c pix img tf).cache = c := by
  simp only [drawImagePattern]
  repeat' split
  all_goals rfl

/-- A cold cache key under which the stepped layer cannot insert stays cold:
inserting needs the layer to be an image whose `format!` key is that very
string, and the hypothesis makes any such layer's own resource lookup (or
decode) miss. -/
theorem stepLayer_preserves_missing_key (E : RenderExts) (res : Resources)
    (db : FontDb) (K : Str) (c : Cache) (l : Layer)
    (hins : ∀ img', l.item = .Image img' →
      imgCacheKey E.fmtF32 img'.source img'.width img'.height = K →
      lookupA res img'.source = none ∨
        ∃ bs, lookupA res img'.source = some bs ∧ E.decodeImage bs = none)
    (hk : lookupA c K = none) :
    lookupA (stepLayer E res db c l).cache K = none := by
  cases hit : l.item with
  | Rect r =>
    suffices hcc : (stepLayer E res db c l).cache = c by rw [hcc]; exact hk
    simp only [stepLayer, hit]
    repeat' split
    all_goals rfl
  | Text t =>
    suffices hcc : (stepLayer E res db c l).cache = c by rw [hcc]; exact hk
    simp only [stepLayer, hit]
    repeat' split
    all_goals rfl
  | Slider sl =>
    suffices hcc : (stepLayer E res db c l).cache = c by rw [hcc]; exact hk
    simp only [stepLayer, hit]
    repeat' split
    all_goals rfl
  | Image img2 =>
    simp only [stepLayer, hit]
    by_cases hk2 : imgCacheKey E.fmtF32 img2.source img2.width img2.height = K
    · rcases hins img2 hit hk2 with hm1 | ⟨bs, hl, hd⟩
      · simp [hk2, hk, hm1]
      · simp [hk2, hk, hl, hd]
    · split
      · next pix heq =>
        rw [drawImagePattern_cache]
        exact hk
      · split
        · exact hk
        · split
          · exact hk
          · split
            · exact hk
            · split
              · next pix heq =>
                rw [drawImagePattern_cache]
                simp only [insertC]
                rw [lookupA_cons_ne pix c (fun he => hk2 he.symm)]
                exact hk
              · exact hk

/-- The layer loop with the skipped layer removed: same cache, same
operations, same error (only the diagnostics differ). -/
theorem runLayers_skip (E : RenderExts) (res : Resources) (db : FontDb)
    (L : Layer) (img : ImageItem)
    (hitem : L.item = .Image img)
    (hmiss : lookupA res img.source = none ∨
      ∃ bs, lookupA res img.source = some bs ∧ E.decodeImage bs = none) :
    ∀ (pre post : List Layer) (c : Cache),
      (∀ l ∈ pre, ∀ img', l.item = .Image img' →
        imgCacheKey E.fmtF32 img'.source img'.width img'.height
          = imgCacheKey E.fmtF32 img.source img.width img.height →
        lookupA res img'.source = none ∨
          ∃ bs, lookupA res img'.source = some bs ∧ E.decodeImage bs = none) →
      lookupA c (imgCacheKey E.fmtF32 img.source img.width img.height) = none →
      (runLayers E res db c (pre ++ L :: post)).cache
          = (runLayers E res db c (pre ++ post)).cache ∧
      (runLayers E res db c (pre ++ L :: post)).ops
          = (runLayers E res db c (pre ++ post)).ops ∧
      (runLayers E res db c (pre ++ L :: post)).err
          = (runLayers E res db c (pre ++ post)).err := by
  intro pre
  induction pre with
  | nil =>
    intro post c _ hk
    obtain ⟨d, hd⟩ := stepLayer_missing_source E res db c L img hitem hmiss hk
    simp [runLayers, hd]
  | cons l rest ih =>
    intro post c hins hk
    simp only [List.cons_append, runLayers]
    cases he : (stepLayer E res db c l).err with
    | some e => simp [he]
    | none =>
      have hk' := stepLayer_preserves_missing_key E res db
        (imgCacheKey E.fmtF32 img.source img.width img.height) c l
        (hins l (List.mem_cons_self l rest)) hk
      obtain ⟨h1, h2, h3⟩ := ih post (stepLayer E res db c l).cache
        (fun l2 hl2 => hins l2 (List.mem_cons_of_mem l hl2)) hk'
      simp [he, h1, h2, h3]

/-- The background pass can insert only under its own `format!` string
`bg_{background}_{w}_{h}`, so any other key's lookup passes through. -/
theorem renderBackground_preserves_key (E : RenderExts) (res : Resources)
    (g : Sigil) (c : Cache) (K : Str)
    (hne : K ≠ bgCacheKey g.background g.width g.height) :
    lookupA (renderBackground E res g c).cache K = lookupA c K := by
  simp only [renderBackground]
  split
  all_goals try rfl
  split
  all_goals try rfl
  split
  all_goals try rfl
  split
  all_goals try rfl
  split
  all_goals try rfl
  split
  · next pix heq =>
    simp only [insertC]
    rw [lookupA_cons_ne pix c hne]
  · rfl

/-- Claim C6, amended: an image layer whose source is absent from the
resource map (or whose bytes fail to decode) is skipped — a diagnostic is
emitted, no operation is painted, the cache is untouched, no error is
raised — and the call's returned value and resulting renderer state equal
those of the same scene with the layer removed, provided no aliasing of
the shared string-keyed cache can resurrect the layer: the renderer's
image cache holds no entry under the layer's `format!` key
`{source}_{width}_{height}`, that string differs from the background's
key `bg_{background}_{w}_{h}`, and every earlier layer whose key formats
to the same string has a source that is itself absent or undecodable.
(Otherwise the aliased pixmap — a warm entry from an earlier call, or the
just-cached background of a colliding name — is painted instead, as the
counterexample shows.) -/
theorem C6_missing_source_skipped (E : RenderExts) (st : RendererState)
    (g : Sigil) (res : Resources) (pre post : List Layer) (L : Layer)
    (img : ImageItem)
    (hsplit : g.layers = pre ++ L :: post)
    (hitem : L.item = .Image img)
    (hmiss : lookupA res img.source = none ∨
      ∃ bs, lookupA res img.source = some bs ∧ E.decodeImage bs = none)
    (hkey : lookupA st.image_cache
      (imgCacheKey E.fmtF32 img.source img.width img.height) = none)
    (hbgne : imgCacheKey E.fmtF32 img.source img.width img.height
      ≠ bgCacheKey g.background g.width g.height)
    (hpre : ∀ l ∈ pre, ∀ img', l.item = .Image img' →
      imgCacheKey E.fmtF32 img'.source img'.width img'.height
        = imgCacheKey E.fmtF32 img.source img.width img.height →
      lookupA res img'.source = none ∨
        ∃ bs, lookupA res img'.source = some bs ∧ E.decodeImage bs = none) :
    ((render_raw E st g res).result
        = (render_raw E st { g with layers := pre ++ post } res).result
      ∧ (render_raw E st g res).state
        = (render_raw E st { g with layers := pre ++ post } res).state)
    ∧ ∀ (db : FontDb) (c : Cache),
        lookupA c (imgCacheKey E.fmtF32 img.source img.width img.height) = none →
        ∃ d, stepLayer E res db c L = ⟨c, [], [d], none⟩ := by
  refine ⟨?_, fun db c hc => stepLayer_missing_source E res db c L img hitem hmiss hc⟩
  have hbgkey : lookupA (renderBackground E res g st.image_cache).cache
      (imgCacheKey E.fmtF32 img.source img.width img.height) = none := by
    rw [renderBackground_preserves_key E res g st.image_cache _ hbgne]
    exact hkey
  obtain ⟨hc, ho, herr⟩ :=
    runLayers_skip E res
      (if (loadFonts E st.fontDb st.loaded_fonts res).2.2 = true then
        setAliases (loadFonts E st.fontDb st.loaded_fonts res).1
      else (loadFonts E st.fontDb st.loaded_fonts res).1)
      L img hitem hmiss pre post
      (renderBackground E res g st.image_cache).cache hpre hbgkey
  have e1 : ({ g with layers := pre ++ post } : Sigil).width = g.width := rfl
  have e2 : ({ g with layers := pre ++ post } : Sigil).height = g.height := rfl
  have e3 : renderBackground E res { g with layers := pre ++ post } st.image_cache
      = renderBackground E res g st.image_cache := rfl
  have e4 : ({ g with layers := pre ++ post } : Sigil).layers = pre ++ post := rfl
  simp only [render_raw, e1, e2, e3, e4]
  rw [hsplit]
  split
  · next heq =>
    try simp only [heq]
    constructor <;> first | rfl | trivial
  · next base heq =>
    try simp only [heq]
    split
    · next e heq2 =>
      try simp only [heq2]
      constructor <;> first | rfl | trivial
    · next heq2 =>
      try simp only [heq2]
      simp only [herr, ho, hc]
      split
      · next e heq3 =>
        try simp only [heq3]
        constructor <;> first | rfl | trivial
      · next heq3 =>
        try simp only [heq3]
        constructor <;> first | rfl | trivial

/-- Claim C6, amended, witness: a cold-cache renderer skips the image layer
with source "a" absent from the empty resource map; with-layer and
without-layer renders agree on value and state. -/
theorem C6_missing_source_skipped_witness :
    ((render_raw noExts (Renderer.new []) c6Scene []).result
        = (render_raw noExts (Renderer.new [])
            { c6Scene with layers := ([] : List Layer) ++ [] } []).result) ∧
    (∃ d, stepLayer noExts [] ⟨[], none⟩ [] c6Layer = ⟨[], [], [d], none⟩) := by
  have h := C6_missing_source_skipped noExts (Renderer.new []) c6Scene []
    [] [] c6Layer ⟨asBytes "a", 1, 1, 0⟩ rfl rfl (Or.inl (by decide)) (by decide)
    (by decide) (fun l hl => absurd hl (List.not_mem_nil l))
  exact ⟨h.1.1, h.2 ⟨[], none⟩ [] (by decide)⟩
